import Mathlib

/-!
Verification of the hemi curve / particle-system module
(`public/js/hemi/curve.js` of the kuda.stable repository).

The JavaScript is shallowly embedded: JS numbers are modelled as exact
rationals (`ℚ`), JS arrays as `List`s, the JS value `null`/`undefined` as
`Option`-`none`, and code paths that throw a `TypeError` (reading a property
of `undefined`, e.g. indexing an array below 0) as `Option`-valued functions
returning `none`.  Mutable objects become explicit state records; methods
become functions from the record to the updated record.
-/

namespace Hemi

/-- A 3D point, embedding the JS `number[3]` triples stored per axis by
`hemi.curve`. -/
abbrev Pt : Type := ℚ × ℚ × ℚ

/-- Embeds both `hemi.curve.ColorKey` and `hemi.curve.ScaleKey` (the two JS
constructors build records of the identical shape `{key, value}`, and all code
paths treat them uniformly). The optional per-key jitter field `range` (whose
effect draws `Math.random()` offsets at ramp-set time) is not modelled: every
claim under verification exercises keys without a `range` field, for which the
source copies `{key: c.key, value: c.value}` unchanged. -/
structure RampKey where
  key : ℚ
  value : List ℚ
deriving DecidableEq

/-- The default color ramp installed by `Particle.prototype.setColors` when the
`colorKeys` argument is `null`/`undefined` (falsy): two black opaque keys. -/
def defaultColorKeys : List RampKey :=
  [{ key := 0, value := [0, 0, 0, 1] }, { key := 1, value := [0, 0, 0, 1] }]

/-- The default scale ramp installed by `Particle.prototype.setScales` when the
`scaleKeys` argument is `null`/`undefined` (falsy): two unit-scale keys. -/
def defaultScaleKeys : List RampKey :=
  [{ key := 0, value := [1, 1, 1] }, { key := 1, value := [1, 1, 1] }]

/-- The backward key scan of `Particle.prototype.lerpValue`:
`while(keySet[ndx].key > time) { ndx--; }` walking down from the start index.
The scan index is the `ℕ` argument; when the scan would move below index 0 the
JS code reads `keySet[-1].key`, i.e. a property of `undefined`, and throws —
modelled as `none`. -/
def Particle.lerpScan (keySet : List RampKey) (time : ℚ) : ℕ → Option ℕ
  | 0 => if time < (keySet.getD 0 { key := 0, value := [] }).key then none else some 0
  | n + 1 =>
    if time < (keySet.getD (n + 1) { key := 0, value := [] }).key then
      Particle.lerpScan keySet time n
    else some (n + 1)

/-- `Particle.prototype.lerpValue(time, keySet)`.  The scan starts at
`keySet.length - 2`; when `keySet` has fewer than two entries this start index
is already negative and the very first `keySet[ndx].key` read throws (`none`).
Otherwise the last key at or below `time` is blended linearly with its
successor.  (JS `NaN` arising from a division by zero between duplicate keys
is modelled by the `ℚ` convention `x / 0 = 0`; no claim exercises it.) -/
def Particle.lerpValue (time : ℚ) (keySet : List RampKey) : Option (List ℚ) :=
  if keySet.length < 2 then none
  else
    match Particle.lerpScan keySet time (keySet.length - 2) with
    | none => none
    | some ndx =>
      let a := keySet.getD ndx { key := 0, value := [] }
      let b := keySet.getD (ndx + 1) { key := 0, value := [] }
      let t := (time - a.key) / (b.key - a.key)
      some ((List.range a.value.length).map
        (fun i => (1 - t) * a.value.getD i 0 + t * b.value.getD i 0))

/-- The per-frame ramp evaluation loop shared by `setColors` and `setScales`:
evaluate `lerpValue` at each frame time in order, failing if any single
evaluation throws. -/
def buildRamp (keySet : List RampKey) : List ℚ → Option (List (List ℚ))
  | [] => some []
  | t :: ts =>
    match Particle.lerpValue t keySet, buildRamp keySet ts with
    | some v, some vs => some (v :: vs)
    | _, _ => none

/-- The frame times at which `setColors`/`setScales` evaluate the ramp:
for `i = 1 .. lastFrame` the time is `(i-1)/(lastFrame-2)` (here reindexed by
`j = i - 1`). -/
def Particle.rampTimes (lastFrame : ℕ) : List ℚ :=
  (List.range lastFrame).map (fun (j : ℕ) => (j : ℚ) / ((lastFrame : ℚ) - 2))

/-- State of a CPU-path `Particle`.  `loops`/`totalLoops` are `Option ℤ`
because the JS fields can hold `undefined` (and `undefined` decremented is
`NaN`, which never compares `=== 0`): `none` models `undefined`/`NaN`.
`visible` is the `transform.visible` flag of the particle's scene node.
The precomputed transform matrices (`lt`, `matrices`) and the THREE material
are render-side state not modelled; `colors` holds the per-frame color array
(entries for frames `1 .. lastFrame`), `scales` likewise. -/
structure Particle where
  frame : ℕ
  lastFrame : ℕ
  loops : Option ℤ
  totalLoops : Option ℤ
  ready : Bool
  active : Bool
  destroyed : Bool
  visible : Bool
  colorKeys : List RampKey
  colors : List (List ℚ)
  scales : List (List ℚ)
deriving DecidableEq

/-- `Particle.prototype.setColors(colorKeys)`: a falsy (`none`) argument
installs the default black ramp; note that an *empty array* is truthy in JS
and is therefore used as-is.  Then the per-frame color array is rebuilt by
evaluating `lerpValue` at every frame time. -/
def Particle.setColors (p : Particle) (colorKeys : Option (List RampKey)) :
    Option Particle :=
  let cks : List RampKey :=
    match colorKeys with
    | some ks => ks
    | none => defaultColorKeys
  match buildRamp cks (Particle.rampTimes p.lastFrame) with
  | some cs => some { p with colorKeys := cks, colors := cs }
  | none => none

/-- `Particle.prototype.setScales(scaleKeys)`: same structure as `setColors`
(the scaled matrices computed from `this.lt` are render-side state, not
modelled). -/
def Particle.setScales (p : Particle) (scaleKeys : Option (List RampKey)) :
    Option Particle :=
  let sks : List RampKey :=
    match scaleKeys with
    | some ks => ks
    | none => defaultScaleKeys
  match buildRamp sks (Particle.rampTimes p.lastFrame) with
  | some ss => some { p with scales := ss }
  | none => none

/-- The `Particle` constructor, for a `points` array of length `numPoints`:
`frame = 1`, `lastFrame = points.length - 2`, `destroyed = false`, then
`setColors` and `setScales` run (either can throw), and finally
`ready = true`, `active = false`.  `loops` and `totalLoops` are never
assigned by the constructor, so both start `undefined` (`none`). -/
def Particle.init (numPoints : ℕ) (colorKeys scaleKeys : Option (List RampKey)) :
    Option Particle :=
  let p : Particle :=
    { frame := 1, lastFrame := numPoints - 2, loops := none, totalLoops := none,
      ready := false, active := false, destroyed := false, visible := true,
      colorKeys := [], colors := [], scales := [] }
  match p.setColors colorKeys with
  | none => none
  | some p =>
    match p.setScales scaleKeys with
    | none => none
    | some p => some { p with ready := true, active := false }

/-- `Particle.prototype.run(loops)`. -/
def Particle.run (loops : ℤ) (p : Particle) : Particle :=
  { p with loops := some loops, ready := false, active := true }

/-- `Particle.prototype.reset()`: hides the transform, restores
`loops := totalLoops`, clears `destroyed` and `active`, sets `ready`. -/
def Particle.reset (p : Particle) : Particle :=
  { p with visible := false, loops := p.totalLoops, destroyed := false,
           active := false, ready := true }

/-- `Particle.prototype.update()`: a no-op when not active; otherwise makes the
transform visible, applies the current frame's color/matrix (render-side, not
modelled), advances the frame cursor, wraps `frame` to 1 when it reaches
`lastFrame` while decrementing `loops`, and calls `reset` when `loops`
hits exactly 0. -/
def Particle.update (p : Particle) : Particle :=
  if p.active then
    let p := { p with visible := true, frame := p.frame + 1 }
    if p.lastFrame ≤ p.frame then
      let p := { p with frame := 1, loops := p.loops.map (· - 1) }
      if p.loops = some 0 then p.reset else p
    else p
  else p

/-! ### Helper lemmas about the particle lifecycle -/

/-- `update` on an inactive particle is a no-op (`if (!this.active) return;`). -/
theorem Particle.update_inactive (p : Particle) (ha : p.active = false) :
    p.update = p := by
  simp [Particle.update, ha]

/-- `update` strictly inside a loop pass: the frame cursor advances by one. -/
theorem Particle.update_advance (p : Particle) (ha : p.active = true)
    (hf : p.frame + 1 < p.lastFrame) :
    p.update = { p with visible := true, frame := p.frame + 1 } := by
  simp only [Particle.update, ha, if_true]
  rw [if_neg (by simpa using Nat.not_le_of_lt hf)]

/-- `update` at the end of a loop pass: the cursor wraps to 1 and `loops` is
decremented; when the decremented counter is exactly 0 the particle resets. -/
theorem Particle.update_wrap (p : Particle) (ha : p.active = true)
    (hf : p.lastFrame ≤ p.frame + 1) :
    p.update =
      (if p.loops.map (· - 1) = some 0 then
        Particle.reset { p with visible := true, frame := 1, loops := p.loops.map (· - 1) }
      else { p with visible := true, frame := 1, loops := p.loops.map (· - 1) }) := by
  simp only [Particle.update, ha, if_true]
  rw [if_pos (by simpa using hf)]

/-- Iterating `update` across one full loop pass (from frame 1 up to the wrap):
`k` updates starting `k` frames before `lastFrame` land exactly on the wrap. -/
theorem Particle.update_pass (k : ℕ) (hk : 1 ≤ k) :
    ∀ p : Particle, p.active = true → p.frame + k = p.lastFrame →
      Particle.update^[k] p =
        (if p.loops.map (· - 1) = some 0 then
          Particle.reset { p with visible := true, frame := 1, loops := p.loops.map (· - 1) }
        else { p with visible := true, frame := 1, loops := p.loops.map (· - 1) }) := by
  induction k with
  | zero => omega
  | succ k ih =>
    intro p ha hf
    rcases Nat.eq_zero_or_pos k with hk0 | hk1
    · subst hk0
      rw [Function.iterate_one]
      exact p.update_wrap ha (by omega)
    · rw [Function.iterate_succ_apply,
        p.update_advance ha (by omega)]
      rw [ih hk1 _ (by simp [ha]) (by simp; omega)]

/-- Every frame time produced by `rampTimes` is nonnegative (for
`lastFrame = 2` the JS division yields `NaN`; in the `ℚ` model `x / 0 = 0`,
which is also nonnegative). -/
theorem Particle.rampTimes_nonneg (m : ℕ) : ∀ t ∈ Particle.rampTimes m, 0 ≤ t := by
  intro t ht
  simp only [Particle.rampTimes, List.mem_map, List.mem_range] at ht
  obtain ⟨j, hj, rfl⟩ := ht
  rcases Nat.lt_or_ge m 3 with h3 | h3
  · interval_cases m <;> simp_all
  · have hd : (0 : ℚ) < (m : ℚ) - 2 := by
      have : (3 : ℚ) ≤ (m : ℚ) := by exact_mod_cast h3
      linarith
    exact div_nonneg (Nat.cast_nonneg j) hd.le

/-- `lerpValue` on a two-key constant ramp `[{0, v}, {1, v}]` at a
nonnegative time returns `v` (specialized to the default color ramp). -/
theorem Particle.lerpValue_defaultColor {t : ℚ} (h0 : 0 ≤ t) :
    Particle.lerpValue t defaultColorKeys = some [0, 0, 0, 1] := by
  simp only [Particle.lerpValue, defaultColorKeys, Particle.lerpScan]
  norm_num [List.range_succ, not_lt.mpr h0]

/-- `lerpValue` on the default scale ramp at a nonnegative time. -/
theorem Particle.lerpValue_defaultScale {t : ℚ} (h0 : 0 ≤ t) :
    Particle.lerpValue t defaultScaleKeys = some [1, 1, 1] := by
  simp only [Particle.lerpValue, defaultScaleKeys, Particle.lerpScan]
  norm_num [List.range_succ, not_lt.mpr h0]

/-- `buildRamp` succeeds with a constant value when every per-frame
`lerpValue` evaluation does. -/
theorem buildRamp_const (ks : List RampKey) (v : List ℚ) (ts : List ℚ)
    (h : ∀ t ∈ ts, Particle.lerpValue t ks = some v) :
    buildRamp ks ts = some (ts.map (fun _ => v)) := by
  induction ts with
  | nil => rfl
  | cons t ts ihts =>
    simp only [buildRamp, h t (by simp), ihts (fun s hs => h s (by simp [hs])),
      List.map_cons]

/-- Mapping a constant function over the `m` frame times yields `m` copies. -/
theorem Particle.rampTimes_map_const (m : ℕ) (v : List ℚ) :
    (Particle.rampTimes m).map (fun _ => v) = List.replicate m v := by
  have hlen : (Particle.rampTimes m).length = m := by
    simp only [Particle.rampTimes, List.length_map, List.length_range]
  rw [List.eq_replicate_iff]
  constructor
  · simp [hlen]
  · intro b hb
    simp only [List.mem_map] at hb
    obtain ⟨-, -, rfl⟩ := hb
    rfl

/-- The `Particle` constructor with falsy (`null`) color and scale keys
succeeds, installing the default black color ramp and unit scale ramp. -/
theorem Particle.init_none_eq (n : ℕ) :
    Particle.init n none none =
      some { frame := 1, lastFrame := n - 2, loops := none, totalLoops := none,
             ready := true, active := false, destroyed := false, visible := true,
             colorKeys := defaultColorKeys,
             colors := List.replicate (n - 2) [0, 0, 0, 1],
             scales := List.replicate (n - 2) [1, 1, 1] } := by
  have hclr : ∀ t ∈ Particle.rampTimes (n - 2),
      Particle.lerpValue t defaultColorKeys = some [0, 0, 0, 1] :=
    fun t ht => Particle.lerpValue_defaultColor (Particle.rampTimes_nonneg _ t ht)
  have hscl : ∀ t ∈ Particle.rampTimes (n - 2),
      Particle.lerpValue t defaultScaleKeys = some [1, 1, 1] :=
    fun t ht => Particle.lerpValue_defaultScale (Particle.rampTimes_nonneg _ t ht)
  simp only [Particle.init, Particle.setColors, Particle.setScales,
    buildRamp_const _ _ _ hclr, Particle.rampTimes_map_const]
  simp only [buildRamp_const _ _ _ hscl, Particle.rampTimes_map_const]

/-! ### Claim theorems: particle lifecycle -/

/-- C2: for a Particle built from a points array of length at least 4
(so `lastFrame = points.length - 2` is at least 2), `run(2)` followed by
exactly `2 * (lastFrame - 1)` calls to `update()` leaves the particle
`ready`, not `active`, and not `destroyed`: the cursor advances one frame per
update, wraps from `lastFrame` to 1 while decrementing the loop counter, and
the counter reaching zero triggers `reset`. -/
theorem particle_run2_update_cycle (n : ℕ) (hn : 4 ≤ n) (p : Particle)
    (hp : Particle.init n none none = some p) :
    ((Particle.update^[2 * (p.lastFrame - 1)]) (Particle.run 2 p)).ready = true ∧
    ((Particle.update^[2 * (p.lastFrame - 1)]) (Particle.run 2 p)).active = false ∧
    ((Particle.update^[2 * (p.lastFrame - 1)]) (Particle.run 2 p)).destroyed = false := by
  rw [Particle.init_none_eq] at hp
  injection hp with hp
  subst hp
  simp only [Particle.run]
  have h1 : Particle.update^[(n - 2) - 1]
      { frame := 1, lastFrame := n - 2, loops := some 2, totalLoops := none,
        ready := false, active := true, destroyed := false, visible := true,
        colorKeys := defaultColorKeys,
        colors := List.replicate (n - 2) [0, 0, 0, 1],
        scales := List.replicate (n - 2) [1, 1, 1] } =
      { frame := 1, lastFrame := n - 2, loops := some 1, totalLoops := none,
        ready := false, active := true, destroyed := false, visible := true,
        colorKeys := defaultColorKeys,
        colors := List.replicate (n - 2) [0, 0, 0, 1],
        scales := List.replicate (n - 2) [1, 1, 1] } := by
    rw [Particle.update_pass ((n - 2) - 1) (by omega) _ rfl (by simp; omega)]
    norm_num
  have h2 : Particle.update^[(n - 2) - 1]
      { frame := 1, lastFrame := n - 2, loops := some 1, totalLoops := none,
        ready := false, active := true, destroyed := false, visible := true,
        colorKeys := defaultColorKeys,
        colors := List.replicate (n - 2) [0, 0, 0, 1],
        scales := List.replicate (n - 2) [1, 1, 1] } =
      { frame := 1, lastFrame := n - 2, loops := none, totalLoops := none,
        ready := true, active := false, destroyed := false, visible := false,
        colorKeys := defaultColorKeys,
        colors := List.replicate (n - 2) [0, 0, 0, 1],
        scales := List.replicate (n - 2) [1, 1, 1] } := by
    rw [Particle.update_pass ((n - 2) - 1) (by omega) _ rfl (by simp; omega)]
    norm_num [Particle.reset]
  rw [show 2 * ((n - 2) - 1) = ((n - 2) - 1) + ((n - 2) - 1) from by omega,
    Function.iterate_add_apply, h1, h2]
  exact ⟨rfl, rfl, rfl⟩

/-- Witness for C2 at the concrete input `n = 4` (`lastFrame = 2`, so exactly
2 updates after `run(2)`). -/
theorem particle_run2_update_cycle_witness :
    (4 : ℕ) ≤ 4 ∧
    Particle.init 4 none none =
      some { frame := 1, lastFrame := 2, loops := none, totalLoops := none,
             ready := true, active := false, destroyed := false, visible := true,
             colorKeys := defaultColorKeys,
             colors := List.replicate 2 [0, 0, 0, 1],
             scales := List.replicate 2 [1, 1, 1] } ∧
    (((Particle.update^[2 * (2 - 1)]) (Particle.run 2
      { frame := 1, lastFrame := 2, loops := none, totalLoops := none,
        ready := true, active := false, destroyed := false, visible := true,
        colorKeys := defaultColorKeys,
        colors := List.replicate 2 [0, 0, 0, 1],
        scales := List.replicate 2 [1, 1, 1] })).ready = true ∧
     ((Particle.update^[2 * (2 - 1)]) (Particle.run 2
      { frame := 1, lastFrame := 2, loops := none, totalLoops := none,
        ready := true, active := false, destroyed := false, visible := true,
        colorKeys := defaultColorKeys,
        colors := List.replicate 2 [0, 0, 0, 1],
        scales := List.replicate 2 [1, 1, 1] })).active = false ∧
     ((Particle.update^[2 * (2 - 1)]) (Particle.run 2
      { frame := 1, lastFrame := 2, loops := none, totalLoops := none,
        ready := true, active := false, destroyed := false, visible := true,
        colorKeys := defaultColorKeys,
        colors := List.replicate 2 [0, 0, 0, 1],
        scales := List.replicate 2 [1, 1, 1] })).destroyed = false) :=
  ⟨le_refl 4, Particle.init_none_eq 4,
   particle_run2_update_cycle 4 (le_refl 4) _ (Particle.init_none_eq 4)⟩

/-- C3 (code bug): when the loop counter hits zero and `reset` fires, the code
executes `this.loops = this.totalLoops`, but `totalLoops` is never assigned
anywhere in the file, so the loop counter becomes `undefined` instead of the
total that was passed to `run`.  Evaluated at the failing input (points array
of length 4, `run(2)`, two updates): `reset` does fire (the particle ends
hidden, inactive and ready, with `destroyed = false`), yet `loops` ends as
`none` (undefined), not `some 2`. -/
theorem particle_reset_loop_total_lost :
    (Particle.init 4 none none).map
        (fun p => ((Particle.update^[2]) (Particle.run 2 p)).loops) = some none ∧
    (Particle.init 4 none none).map
        (fun p => ((Particle.update^[2]) (Particle.run 2 p)).ready) = some true ∧
    (Particle.init 4 none none).map
        (fun p => ((Particle.update^[2]) (Particle.run 2 p)).active) = some false ∧
    (Particle.init 4 none none).map
        (fun p => ((Particle.update^[2]) (Particle.run 2 p)).destroyed) = some false ∧
    (Particle.init 4 none none).map
        (fun p => ((Particle.update^[2]) (Particle.run 2 p)).visible) = some false := by
  rw [Particle.init_none_eq 4]
  norm_num [Particle.run, Particle.update, Particle.reset,
    Function.iterate_succ_apply, Function.iterate_zero_apply]

/-! ### The CPU system's ramp-key selection and the GPU system's ramp storage -/

/-- The `ParticleCurveSystem` constructor's color-ramp selection
(`config.colorKeys` is passed through to every `Particle` unchanged;
otherwise `config.colors` is converted to evenly spaced keys with
`step = len === 1 ? 1 : 1/(len-1)`; otherwise the keys stay `null`). -/
def systemColorKeys (colorKeys : Option (List RampKey))
    (colors : Option (List (List ℚ))) : Option (List RampKey) :=
  match colorKeys with
  | some ks => some ks
  | none =>
    match colors with
    | some cs =>
      let len := cs.length
      let step : ℚ := if len = 1 then 1 else 1 / ((len : ℚ) - 1)
      some ((List.range len).map
        (fun (i : ℕ) => { key := (i : ℚ) * step, value := cs.getD i [] }))
    | none => none

/-- State of a `GpuParticleCurveSystem` relevant to ramp storage: the `colors`
and `scales` key arrays.  (The shader recomposition `setupShaders()` triggered
after each mutation touches only GL-side state, never these arrays.) -/
structure GpuParticleCurveSystem where
  colors : List RampKey
  scales : List RampKey
deriving DecidableEq

/-- `GpuParticleCurveSystem.prototype.setColorKeys(colorKeys)`: one key is
duplicated at times 0 and 1; two or more keys have the first key forced to 0
and the last forced to 1; zero keys store an empty ramp. -/
def GpuParticleCurveSystem.setColorKeys (g : GpuParticleCurveSystem)
    (colorKeys : List RampKey) : GpuParticleCurveSystem :=
  let len := colorKeys.length
  if len = 1 then
    let clr := (colorKeys.getD 0 { key := 0, value := [] }).value
    { g with colors := [{ key := 0, value := clr }, { key := 1, value := clr }] }
  else if 1 < len then
    let l1 := colorKeys.set 0
      { colorKeys.getD 0 { key := 0, value := [] } with key := 0 }
    let l2 := l1.set (len - 1)
      { l1.getD (len - 1) { key := 0, value := [] } with key := 1 }
    { g with colors := l2 }
  else { g with colors := [] }

/-- `GpuParticleCurveSystem.prototype.setScaleKeys(scaleKeys)`: identical
normalization, stored in `scales`. -/
def GpuParticleCurveSystem.setScaleKeys (g : GpuParticleCurveSystem)
    (scaleKeys : List RampKey) : GpuParticleCurveSystem :=
  let len := scaleKeys.length
  if len = 1 then
    let scl := (scaleKeys.getD 0 { key := 0, value := [] }).value
    { g with scales := [{ key := 0, value := scl }, { key := 1, value := scl }] }
  else if 1 < len then
    let l1 := scaleKeys.set 0
      { scaleKeys.getD 0 { key := 0, value := [] } with key := 0 }
    let l2 := l1.set (len - 1)
      { l1.getD (len - 1) { key := 0, value := [] } with key := 1 }
    { g with scales := l2 }
  else { g with scales := [] }

/-! ### Scan lemmas for `lerpValue` -/

/-- A successful backward scan stops at an index at most the start index whose
key is at most the probe time. -/
theorem Particle.lerpScan_some (ks : List RampKey) (time : ℚ) :
    ∀ m ndx, Particle.lerpScan ks time m = some ndx →
      ndx ≤ m ∧ (ks.getD ndx { key := 0, value := [] }).key ≤ time := by
  intro m
  induction m with
  | zero =>
    intro ndx h
    simp only [Particle.lerpScan] at h
    split at h
    · exact absurd h (by simp)
    · cases h
      exact ⟨le_refl 0, not_lt.mp (by assumption)⟩
  | succ m ih =>
    intro ndx h
    simp only [Particle.lerpScan] at h
    split at h
    · obtain ⟨h1, h2⟩ := ih ndx h
      exact ⟨by omega, h2⟩
    · cases h
      exact ⟨le_refl _, not_lt.mp (by assumption)⟩

/-- When every key in range is strictly above the probe time, the scan walks
past the front of the array and throws (`none`). -/
theorem Particle.lerpScan_none (ks : List RampKey) (time : ℚ)
    (hall : ∀ i, i < ks.length → time < (ks.getD i { key := 0, value := [] }).key) :
    ∀ m, m < ks.length → Particle.lerpScan ks time m = none := by
  intro m
  induction m with
  | zero =>
    intro hm
    simp only [Particle.lerpScan, if_pos (hall 0 hm)]
  | succ m ih =>
    intro hm
    simp only [Particle.lerpScan, if_pos (hall (m + 1) hm)]
    exact ih (by omega)

/-- For at least one frame, the first frame time evaluated by
`setColors`/`setScales` is exactly 0. -/
theorem Particle.rampTimes_head (m : ℕ) (hm : 1 ≤ m) :
    ∃ ts, Particle.rampTimes m = (0 : ℚ) :: ts := by
  obtain ⟨k, rfl⟩ : ∃ k, m = k + 1 := ⟨m - 1, by omega⟩
  refine ⟨((List.range k).map Nat.succ).map
    (fun (j : ℕ) => (j : ℚ) / (((k : ℚ) + 1) - 2)), ?_⟩
  simp only [Particle.rampTimes, List.range_succ_eq_map, List.map_cons, List.map_map]
  norm_num

/-- Pinning the end keys of a multi-key ramp (the `len > 1` branch shared by
`setColorKeys` and `setScaleKeys`): length preserved, first key forced to 0,
last key forced to 1, values at the ends and all middle entries unchanged. -/
theorem normalize_pin_ends (ks : List RampKey) (h2 : 2 ≤ ks.length)
    (l2 : List RampKey)
    (hdef : l2 = (ks.set 0 { ks.getD 0 { key := 0, value := [] } with key := 0 }).set
        (ks.length - 1)
        { (ks.set 0 { ks.getD 0 { key := 0, value := [] } with key := 0 }).getD
            (ks.length - 1) { key := 0, value := [] } with key := 1 }) :
    l2.length = ks.length ∧
    (l2.getD 0 { key := 0, value := [] }).key = 0 ∧
    (l2.getD 0 { key := 0, value := [] }).value =
      (ks.getD 0 { key := 0, value := [] }).value ∧
    (l2.getD (ks.length - 1) { key := 0, value := [] }).key = 1 ∧
    (l2.getD (ks.length - 1) { key := 0, value := [] }).value =
      (ks.getD (ks.length - 1) { key := 0, value := [] }).value ∧
    (∀ i, 0 < i → i < ks.length - 1 →
      l2.getD i { key := 0, value := [] } = ks.getD i { key := 0, value := [] }) := by
  have h0 : 0 < ks.length := by omega
  have hlast : ks.length - 1 < ks.length := by omega
  subst hdef
  refine ⟨by simp, ?_, ?_, ?_, ?_, ?_⟩
  · rw [List.getD_eq_getElem _ _ (by simp; omega),
      List.getElem_set_ne (by omega), List.getElem_set_self]
  · rw [List.getD_eq_getElem _ _ (by simp; omega),
      List.getElem_set_ne (by omega), List.getElem_set_self]
  · rw [List.getD_eq_getElem _ _ (by simp; omega), List.getElem_set_self]
  · rw [List.getD_eq_getElem _ _ (by simp; omega), List.getElem_set_self]
    show ((ks.set 0 _).getD (ks.length - 1) _).value = _
    rw [List.getD_eq_getElem _ _ (by simp; omega),
      List.getElem_set_ne (by omega),
      List.getD_eq_getElem _ _ hlast]
  · intro i hi0 hilast
    rw [List.getD_eq_getElem _ _ (by simp; omega),
      List.getElem_set_ne (by omega), List.getElem_set_ne (by omega)]
    exact (List.getD_eq_getElem _ _ (by omega)).symm

/-! ### Claim theorems: ramps -/

/-- C7: `GpuParticleCurveSystem.setColorKeys` (and `setScaleKeys`) normalizes
its input: an empty list is stored as an empty ramp; a single key is stored as
two entries at times 0 and 1 carrying the single value; for two or more keys
the first entry's key is forced to 0, the last entry's key is forced to 1, and
every middle entry is stored unchanged. -/
theorem gpu_ramp_key_normalization (g : GpuParticleCurveSystem) (ks : List RampKey) :
    (ks.length = 0 →
      (g.setColorKeys ks).colors = [] ∧ (g.setScaleKeys ks).scales = []) ∧
    (ks.length = 1 →
      (g.setColorKeys ks).colors =
        [{ key := 0, value := (ks.getD 0 { key := 0, value := [] }).value },
         { key := 1, value := (ks.getD 0 { key := 0, value := [] }).value }] ∧
      (g.setScaleKeys ks).scales =
        [{ key := 0, value := (ks.getD 0 { key := 0, value := [] }).value },
         { key := 1, value := (ks.getD 0 { key := 0, value := [] }).value }]) ∧
    (2 ≤ ks.length →
      ((g.setColorKeys ks).colors.length = ks.length ∧
       ((g.setColorKeys ks).colors.getD 0 { key := 0, value := [] }).key = 0 ∧
       ((g.setColorKeys ks).colors.getD 0 { key := 0, value := [] }).value =
         (ks.getD 0 { key := 0, value := [] }).value ∧
       ((g.setColorKeys ks).colors.getD (ks.length - 1)
         { key := 0, value := [] }).key = 1 ∧
       ((g.setColorKeys ks).colors.getD (ks.length - 1)
         { key := 0, value := [] }).value =
         (ks.getD (ks.length - 1) { key := 0, value := [] }).value ∧
       (∀ i, 0 < i → i < ks.length - 1 →
         (g.setColorKeys ks).colors.getD i { key := 0, value := [] } =
           ks.getD i { key := 0, value := [] })) ∧
      ((g.setScaleKeys ks).scales.length = ks.length ∧
       ((g.setScaleKeys ks).scales.getD 0 { key := 0, value := [] }).key = 0 ∧
       ((g.setScaleKeys ks).scales.getD 0 { key := 0, value := [] }).value =
         (ks.getD 0 { key := 0, value := [] }).value ∧
       ((g.setScaleKeys ks).scales.getD (ks.length - 1)
         { key := 0, value := [] }).key = 1 ∧
       ((g.setScaleKeys ks).scales.getD (ks.length - 1)
         { key := 0, value := [] }).value =
         (ks.getD (ks.length - 1) { key := 0, value := [] }).value ∧
       (∀ i, 0 < i → i < ks.length - 1 →
         (g.setScaleKeys ks).scales.getD i { key := 0, value := [] } =
           ks.getD i { key := 0, value := [] }))) := by
  refine ⟨?_, ?_, ?_⟩
  · intro h0
    constructor <;>
      simp [GpuParticleCurveSystem.setColorKeys, GpuParticleCurveSystem.setScaleKeys, h0]
  · intro h1
    constructor <;>
      simp [GpuParticleCurveSystem.setColorKeys, GpuParticleCurveSystem.setScaleKeys, h1]
  · intro h2
    have hc : (g.setColorKeys ks).colors =
        (ks.set 0 { ks.getD 0 { key := 0, value := [] } with key := 0 }).set
          (ks.length - 1)
          { (ks.set 0 { ks.getD 0 { key := 0, value := [] } with key := 0 }).getD
              (ks.length - 1) { key := 0, value := [] } with key := 1 } := by
      rw [GpuParticleCurveSystem.setColorKeys]
      rw [if_neg (by omega), if_pos (by omega)]
    have hs : (g.setScaleKeys ks).scales =
        (ks.set 0 { ks.getD 0 { key := 0, value := [] } with key := 0 }).set
          (ks.length - 1)
          { (ks.set 0 { ks.getD 0 { key := 0, value := [] } with key := 0 }).getD
              (ks.length - 1) { key := 0, value := [] } with key := 1 } := by
      rw [GpuParticleCurveSystem.setScaleKeys]
      rw [if_neg (by omega), if_pos (by omega)]
    exact ⟨normalize_pin_ends ks h2 _ hc, normalize_pin_ends ks h2 _ hs⟩

/-- Witness for C7 at the empty list, a singleton key, and a three-key list. -/
theorem gpu_ramp_key_normalization_witness :
    (([] : List RampKey).length = 0 ∧
      (GpuParticleCurveSystem.setColorKeys { colors := [], scales := [] } []).colors = []) ∧
    (([{ key := (3 : ℚ) , value := [(7 : ℚ)] }] : List RampKey).length = 1 ∧
      (GpuParticleCurveSystem.setColorKeys { colors := [], scales := [] }
          [{ key := (3 : ℚ), value := [(7 : ℚ)] }]).colors =
        [{ key := 0, value := [(7 : ℚ)] }, { key := 1, value := [(7 : ℚ)] }]) ∧
    (2 ≤ ([{ key := (2 : ℚ), value := [(5 : ℚ)] }, { key := (3 : ℚ), value := [(6 : ℚ)] },
           { key := (4 : ℚ), value := [(7 : ℚ)] }] : List RampKey).length ∧
      ((GpuParticleCurveSystem.setColorKeys { colors := [], scales := [] }
          [{ key := (2 : ℚ), value := [(5 : ℚ)] }, { key := (3 : ℚ), value := [(6 : ℚ)] },
           { key := (4 : ℚ), value := [(7 : ℚ)] }]).colors.getD 0
        { key := 0, value := [] }).key = 0 ∧
      ((GpuParticleCurveSystem.setColorKeys { colors := [], scales := [] }
          [{ key := (2 : ℚ), value := [(5 : ℚ)] }, { key := (3 : ℚ), value := [(6 : ℚ)] },
           { key := (4 : ℚ), value := [(7 : ℚ)] }]).colors.getD 2
        { key := 0, value := [] }).key = 1) :=
  ⟨⟨rfl, ((gpu_ramp_key_normalization { colors := [], scales := [] } []).1 rfl).1⟩,
   ⟨rfl, by
      have h := ((gpu_ramp_key_normalization { colors := [], scales := [] }
        [{ key := (3 : ℚ), value := [(7 : ℚ)] }]).2.1 rfl).1
      simpa using h⟩,
   ⟨by norm_num, by
      have h := ((gpu_ramp_key_normalization { colors := [], scales := [] }
        [{ key := (2 : ℚ), value := [(5 : ℚ)] }, { key := (3 : ℚ), value := [(6 : ℚ)] },
         { key := (4 : ℚ), value := [(7 : ℚ)] }]).2.2 (by norm_num)).1
      exact h.2.1, by
      have h := ((gpu_ramp_key_normalization { colors := [], scales := [] }
        [{ key := (2 : ℚ), value := [(5 : ℚ)] }, { key := (3 : ℚ), value := [(6 : ℚ)] },
         { key := (4 : ℚ), value := [(7 : ℚ)] }]).2.2 (by norm_num)).1
      exact h.2.2.2.1⟩⟩

/-- C9 counterexample: the claim "for every Particle, setColors with an empty
key list (as with a null one) yields a usable default color ramp so that
per-frame color evaluation succeeds" is false on the code.  An empty array is
truthy in JS, so `setColors([])` does *not* take the default-ramp branch: it
stores the empty key set and the very first `lerpValue` evaluation starts its
scan at index `-2` and throws.  Evaluated at a particle with `lastFrame = 3`. -/
theorem setColors_empty_list_errors :
    Particle.setColors
      { frame := 1, lastFrame := 3, loops := none, totalLoops := none,
        ready := true, active := false, destroyed := false, visible := true,
        colorKeys := [], colors := [], scales := [] } (some []) = none := by
  norm_num [Particle.setColors, buildRamp, Particle.rampTimes, Particle.lerpValue,
    List.range_succ]

/-- C9 (amended): a `null`/`undefined` key list degrades gracefully on the CPU
path (the default black ramp is installed and every per-frame evaluation
succeeds), and an empty key list degrades gracefully on the GPU path (an empty
ramp is stored); but an *empty* key list on the CPU path raises an error at
ramp-set time whenever the particle has at least one frame. -/
theorem ramp_empty_input_behavior :
    (∀ p : Particle, (Particle.setColors p none).isSome = true ∧
      (Particle.setColors p none).map Particle.colorKeys = some defaultColorKeys) ∧
    (∀ g : GpuParticleCurveSystem, (g.setColorKeys []).colors = []) ∧
    (∀ p : Particle, 1 ≤ p.lastFrame → Particle.setColors p (some []) = none) := by
  refine ⟨?_, ?_, ?_⟩
  · intro p
    have hclr : ∀ t ∈ Particle.rampTimes p.lastFrame,
        Particle.lerpValue t defaultColorKeys = some [0, 0, 0, 1] :=
      fun t ht => Particle.lerpValue_defaultColor (Particle.rampTimes_nonneg _ t ht)
    rw [Particle.setColors]
    simp only [buildRamp_const _ _ _ hclr]
    simp
  · intro g
    simp [GpuParticleCurveSystem.setColorKeys]
  · intro p hl
    obtain ⟨ts, hts⟩ := Particle.rampTimes_head p.lastFrame hl
    rw [Particle.setColors]
    simp only [hts, buildRamp]
    rw [Particle.lerpValue, if_pos (by simp)]

/-- Witness for C9 (amended) at a particle with `lastFrame = 3` and an empty
GPU system. -/
theorem ramp_empty_input_behavior_witness :
    ((Particle.setColors
        { frame := 1, lastFrame := 3, loops := none, totalLoops := none,
          ready := true, active := false, destroyed := false, visible := true,
          colorKeys := [], colors := [], scales := [] } none).isSome = true) ∧
    ((GpuParticleCurveSystem.setColorKeys { colors := [], scales := [] } []).colors = []) ∧
    (1 ≤ (3 : ℕ) ∧
      Particle.setColors
        { frame := 1, lastFrame := 3, loops := none, totalLoops := none,
          ready := true, active := false, destroyed := false, visible := true,
          colorKeys := [], colors := [], scales := [] } (some []) = none) :=
  ⟨(ramp_empty_input_behavior.1 _).1,
   ramp_empty_input_behavior.2.1 _,
   ⟨by norm_num, ramp_empty_input_behavior.2.2 _ (by norm_num)⟩⟩

/-- C10: `lerpValue(time, keySet)` returns a value only when `keySet` has at
least two entries and (for an ascending-key ramp) the first entry's key is at
most `time`; the CPU system constructor passes caller `colorKeys` through
unchanged (no normalization, unlike the GPU path), so a sorted CPU ramp whose
first key is strictly positive drives the backward scan past the front of the
array and fails at ramp-set time, at frame 1's time value 0. -/
theorem lerpValue_first_key_precondition :
    (∀ (time : ℚ) (ks : List RampKey),
      (Particle.lerpValue time ks).isSome = true → 2 ≤ ks.length) ∧
    (∀ (time : ℚ) (ks : List RampKey),
      ks.Pairwise (fun a b => a.key ≤ b.key) →
      (Particle.lerpValue time ks).isSome = true →
      (ks.getD 0 { key := 0, value := [] }).key ≤ time) ∧
    (∀ (ks : List RampKey) (cs : Option (List (List ℚ))),
      systemColorKeys (some ks) cs = some ks) ∧
    (∀ (ks : List RampKey) (p : Particle),
      ks ≠ [] → ks.Pairwise (fun a b => a.key ≤ b.key) →
      0 < (ks.getD 0 { key := 0, value := [] }).key →
      3 ≤ p.lastFrame → Particle.setColors p (some ks) = none) := by
  have hlen2 : ∀ (time : ℚ) (ks : List RampKey),
      (Particle.lerpValue time ks).isSome = true → 2 ≤ ks.length := by
    intro time ks h
    by_contra hlen
    rw [Particle.lerpValue, if_pos (by omega)] at h
    simp at h
  refine ⟨hlen2, ?_, ?_, ?_⟩
  · intro time ks hsort h
    have h2 := hlen2 time ks h
    rw [Particle.lerpValue, if_neg (by omega)] at h
    rcases hscan : Particle.lerpScan ks time (ks.length - 2) with _ | ndx
    · rw [hscan] at h; simp at h
    · obtain ⟨hle, hkey⟩ := Particle.lerpScan_some ks time _ _ hscan
      rcases Nat.eq_zero_or_pos ndx with h0 | h0
      · subst h0; exact hkey
      · have hndx : ndx < ks.length := by omega
        have h0lt : 0 < ks.length := by omega
        have hrel := (List.pairwise_iff_getElem.mp hsort) 0 ndx h0lt hndx h0
        rw [List.getD_eq_getElem ks _ h0lt]
        calc ks[0].key ≤ ks[ndx].key := hrel
          _ = (ks.getD ndx { key := 0, value := [] }).key := by
              rw [List.getD_eq_getElem ks _ hndx]
          _ ≤ time := hkey
  · intro ks cs; rfl
  · intro ks p hne hsort hpos h3
    have hlv : Particle.lerpValue 0 ks = none := by
      rcases Nat.lt_or_ge ks.length 2 with h2 | h2
      · rw [Particle.lerpValue, if_pos h2]
      · have hall : ∀ i, i < ks.length →
            (0 : ℚ) < (ks.getD i { key := 0, value := [] }).key := by
          intro i hi
          rcases Nat.eq_zero_or_pos i with h0 | h0
          · subst h0; exact hpos
          · have hrel := (List.pairwise_iff_getElem.mp hsort) 0 i (by omega) hi h0
            rw [List.getD_eq_getElem ks _ hi]
            calc (0 : ℚ) < ks[0].key := by
                  rw [List.getD_eq_getElem ks _ (by omega)] at hpos; exact hpos
              _ ≤ ks[i].key := hrel
        rw [Particle.lerpValue, if_neg (by omega),
          Particle.lerpScan_none ks 0 hall _ (by omega)]
    obtain ⟨ts, hts⟩ := Particle.rampTimes_head p.lastFrame (by omega)
    rw [Particle.setColors]
    simp only [hts, buildRamp, hlv]

/-- Witness for C10: a successful two-key evaluation at time 0, the system
passthrough, and the failing positive-first-key ramp at `lastFrame = 3`. -/
theorem lerpValue_first_key_precondition_witness :
    ((Particle.lerpValue 0
        [{ key := 0, value := [(1 : ℚ), 0, 0, 1] },
         { key := 1, value := [(0 : ℚ), 0, 1, 1] }]).isSome = true ∧
      2 ≤ ([{ key := 0, value := [(1 : ℚ), 0, 0, 1] },
            { key := 1, value := [(0 : ℚ), 0, 1, 1] }] : List RampKey).length ∧
      (([{ key := 0, value := [(1 : ℚ), 0, 0, 1] },
          { key := 1, value := [(0 : ℚ), 0, 1, 1] }] : List RampKey).getD 0
        { key := 0, value := [] }).key ≤ 0) ∧
    (systemColorKeys (some [{ key := (1 : ℚ), value := [(5 : ℚ)] }]) none =
      some [{ key := (1 : ℚ), value := [(5 : ℚ)] }]) ∧
    (Particle.setColors
        { frame := 1, lastFrame := 4, loops := none, totalLoops := none,
          ready := true, active := false, destroyed := false, visible := true,
          colorKeys := [], colors := [], scales := [] }
        (some [{ key := (1 : ℚ), value := [(5 : ℚ)] },
               { key := (2 : ℚ), value := [(6 : ℚ)] }]) = none) := by
  have hsome : (Particle.lerpValue 0
      [{ key := 0, value := [(1 : ℚ), 0, 0, 1] },
       { key := 1, value := [(0 : ℚ), 0, 1, 1] }]).isSome = true := by
    norm_num [Particle.lerpValue, Particle.lerpScan]
  have hsort1 : ([{ key := (1 : ℚ), value := [(5 : ℚ)] },
      { key := (2 : ℚ), value := [(6 : ℚ)] }] : List RampKey).Pairwise
      (fun a b => a.key ≤ b.key) := by
    norm_num [List.pairwise_cons]
  refine ⟨⟨hsome, lerpValue_first_key_precondition.1 0 _ hsome,
      lerpValue_first_key_precondition.2.1 0 _ (by
        norm_num [List.pairwise_cons]) hsome⟩,
    lerpValue_first_key_precondition.2.2.1 _ none,
    lerpValue_first_key_precondition.2.2.2 _ _ (by simp) hsort1 (by norm_num)
      (by norm_num)⟩

/-! ### The Curve class -/

/-- `hemi.curve.CurveType`, the JS enum with codes 0..5. -/
inductive CurveType where
  | Linear
  | Bezier
  | CubicHermite
  | LinearNorm
  | Cardinal
  | Custom
deriving DecidableEq

/-- The numeric code of each `CurveType` (`Linear : 0`, ..., `Custom : 5`);
needed because JS truthiness tests treat the `Linear` code 0 as falsy. -/
def CurveType.code : CurveType → ℕ
  | .Linear => 0
  | .Bezier => 1
  | .CubicHermite => 2
  | .LinearNorm => 3
  | .Cardinal => 4
  | .Custom => 5

/-- Which concrete function the mutable method pointer `this.interpolate`
currently holds: the prototype default `[t,t,t]` or one of the four
algorithms installed by `setType` (for `Custom`, `setType` leaves the pointer
unchanged). -/
inductive InterpKind where
  | dflt
  | linear
  | bezier
  | cubicHermite
  | linearNorm
deriving DecidableEq

/-- The configuration object accepted by `Curve.prototype.loadConfig`.
`weights` entries can be `null` (a per-entry `!= null` check applies);
`tangents` entries likewise can be missing.  A JS `tension` left undefined
behaves as the falsy 0. -/
structure CurveConfig where
  points : Option (List Pt) := none
  weights : Option (List (Option ℚ)) := none
  tangents : Option (List (Option Pt)) := none
  tension : ℚ := 0
  type : Option CurveType := none

/-- State of a `Curve`: per-axis position and tangent arrays, per-waypoint
weights, waypoint count, tension, the type tag, and the current value of the
mutable `interpolate` method pointer. -/
structure Curve where
  count : ℕ
  tension : ℚ
  type : Option CurveType
  weights : List ℚ
  xpts : List ℚ
  xtans : List ℚ
  ypts : List ℚ
  ytans : List ℚ
  zpts : List ℚ
  ztans : List ℚ
  interp : InterpKind
deriving DecidableEq

/-- JS assignment `arr[i] = v` for `i` below the new values' length keeps any
longer tail of the existing array: writing the prefix `vals` over `old`. -/
def overwriteList (old vals : List ℚ) : List ℚ :=
  vals ++ old.drop vals.length

/-- The truthiness chain `a || b` on curve-type values: `a` wins only when it
is present and its numeric code is nonzero (so a stored `Linear`, code 0, is
falsy and falls through). -/
def jsOrType (a : Option CurveType) (b : CurveType) : CurveType :=
  match a with
  | some t => if t.code ≠ 0 then t else b
  | none => b

/-- `Curve.prototype.setType(type)`: stores the type tag and redirects the
`interpolate` method pointer; `Custom` (and the `default` fall-through) leave
the pointer as it was. -/
def Curve.setType (c : Curve) (t : CurveType) : Curve :=
  { c with type := some t,
           interp :=
             match t with
             | .Linear => .linear
             | .Bezier => .bezier
             | .CubicHermite => .cubicHermite
             | .Cardinal => .cubicHermite
             | .LinearNorm => .linearNorm
             | .Custom => c.interp }

/-- The per-axis tangent values computed by `Curve.prototype.setTangents` for
a Cardinal curve: the axis positions are cloned, the first value is unshifted
onto the front and the last pushed onto the back, and then
`tan[i] = (1 - tension) * (ext[i+2] - ext[i]) / 2` for each waypoint. -/
def setTangentsVals (pts : List ℚ) (count : ℕ) (tension : ℚ) : List ℚ :=
  let ext := pts.headD 0 :: (pts ++ [pts.getLastD 0])
  (List.range count).map
    (fun i => (1 - tension) * (ext.getD (i + 2) 0 - ext.getD i 0) / 2)

/-- `Curve.prototype.setTangents()`: recomputes the tangent arrays from
positions and tension when the type is Cardinal; otherwise does nothing. -/
def Curve.setTangents (c : Curve) : Curve :=
  if c.type = some CurveType.Cardinal then
    { c with
        xtans := overwriteList c.xtans (setTangentsVals c.xpts c.count c.tension),
        ytans := overwriteList c.ytans (setTangentsVals c.ypts c.count c.tension),
        ztans := overwriteList c.ztans (setTangentsVals c.zpts c.count c.tension) }
  else c

/-- `Curve.prototype.loadConfig(cfg)`: resolves the type through the
truthiness chain `cfg.type || this.type || Linear`, fills the per-axis
arrays/weights/tangent slots from `cfg.points` (tangents zeroed, weights 1),
applies optional per-entry `cfg.weights` (null entries default to 1) and
`cfg.tangents` (missing entries keep the current tangent), applies a truthy
(nonzero) `cfg.tension`, and finally calls `setTangents`. -/
def Curve.loadConfig (c : Curve) (cfg : CurveConfig) : Curve :=
  let ty := jsOrType cfg.type (jsOrType c.type CurveType.Linear)
  let c := c.setType ty
  let c :=
    match cfg.points with
    | some ps =>
      { c with count := ps.length,
               xpts := overwriteList c.xpts (ps.map (fun (p : Pt) => p.1)),
               ypts := overwriteList c.ypts (ps.map (fun (p : Pt) => p.2.1)),
               zpts := overwriteList c.zpts (ps.map (fun (p : Pt) => p.2.2)),
               xtans := overwriteList c.xtans (List.replicate ps.length 0),
               ytans := overwriteList c.ytans (List.replicate ps.length 0),
               ztans := overwriteList c.ztans (List.replicate ps.length 0),
               weights := overwriteList c.weights (List.replicate ps.length 1) }
    | none => c
  let c :=
    match cfg.weights with
    | some ws =>
      { c with weights := overwriteList c.weights
                 ((List.range c.count).map (fun i => (ws.getD i none).getD 1)) }
    | none => c
  let c :=
    match cfg.tangents with
    | some tg =>
      { c with
          xtans := overwriteList c.xtans ((List.range c.count).map (fun i =>
            match tg.getD i none with
            | some v => v.1
            | none => c.xtans.getD i 0)),
          ytans := overwriteList c.ytans ((List.range c.count).map (fun i =>
            match tg.getD i none with
            | some v => v.2.1
            | none => c.ytans.getD i 0)),
          ztans := overwriteList c.ztans ((List.range c.count).map (fun i =>
            match tg.getD i none with
            | some v => v.2.2
            | none => c.ztans.getD i 0)) }
    | none => c
  let c := if cfg.tension ≠ 0 then { c with tension := cfg.tension } else c
  c.setTangents

/-- A `Curve` before `loadConfig` runs: all arrays empty, tension 0, the
constructor's optional type stored, the `interpolate` pointer still the
prototype default. -/
def newCurve (opt_type : Option CurveType) : Curve :=
  { count := 0, tension := 0, type := opt_type, weights := [],
    xpts := [], xtans := [], ypts := [], ytans := [], zpts := [], ztans := [],
    interp := .dflt }

/-- The `Curve(points, opt_type, opt_config)` constructor with a provided
points array: field initialization followed by `loadConfig` on the config
with `points` spliced in. -/
def mkCurve (points : List Pt) (opt_type : Option CurveType)
    (cfg : CurveConfig) : Curve :=
  (newCurve opt_type).loadConfig { cfg with points := some points }

/-- The waypoint at index `i`, reassembled from the per-axis arrays. -/
def Curve.pt (c : Curve) (i : ℕ) : Pt :=
  (c.xpts.getD i 0, c.ypts.getD i 0, c.zpts.getD i 0)

/-- One axis of `Curve.prototype.linear(t)`: locate the segment
`ndx = floor(t*n)` (clamped so `t = 1` stays on the last segment), compute the
local parameter `tt`, and blend the two segment endpoints. -/
def linearAxis (pts : List ℚ) (count : ℕ) (t : ℚ) : ℚ :=
  let n : ℤ := (count : ℤ) - 1
  let ndx0 : ℤ := ⌊t * (n : ℚ)⌋
  let ndx : ℤ := if n ≤ ndx0 then n - 1 else ndx0
  let tt : ℚ := (t - (ndx : ℚ) / (n : ℚ)) /
    (((ndx : ℚ) + 1) / (n : ℚ) - (ndx : ℚ) / (n : ℚ))
  (1 - tt) * pts.getD ndx.toNat 0 + tt * pts.getD (ndx.toNat + 1) 0

/-- `Curve.prototype.linear(t)`, per axis. -/
def Curve.linear (c : Curve) (t : ℚ) : Pt :=
  (linearAxis c.xpts c.count t, linearAxis c.ypts c.count t,
   linearAxis c.zpts c.count t)

/-- `Curve.prototype.bezier(t)`: full-degree Bernstein blend over all
waypoints with per-waypoint weights, normalized by the accumulated weighted
basis sum.  `hemi.utils.choose` is not under src; modelled from the spec's
"Bernstein-polynomial blend" as the binomial coefficient. -/
def Curve.bezier (c : Curve) (t : ℚ) : Pt :=
  let fac : ℕ → ℚ := fun i =>
    c.weights.getD i 0 * (Nat.choose (c.count - 1) i : ℚ) * t ^ i *
      (1 - t) ^ (c.count - 1 - i)
  let w := ∑ i ∈ Finset.range c.count, fac i
  ((∑ i ∈ Finset.range c.count, fac i * c.xpts.getD i 0) / w,
   (∑ i ∈ Finset.range c.count, fac i * c.ypts.getD i 0) / w,
   (∑ i ∈ Finset.range c.count, fac i * c.zpts.getD i 0) / w)

/-- Modelled from the spec: `hemi.utils.cubicHermite(t, p0, m0, p1, m1)` is
not under src; the spec describes a per-axis Hermite blend, and the repo's own
shader chunk `ptcInterp` in this file spells the same basis:
`(2t^3-3t^2+1)p0 + (t^3-2t^2+t)m0 + (-2t^3+3t^2)p1 + (t^3-t^2)m1`. -/
def cubicHermiteFn (t p0 m0 p1 m1 : ℚ) : ℚ :=
  (2 * t ^ 3 - 3 * t ^ 2 + 1) * p0 + (t ^ 3 - 2 * t ^ 2 + t) * m0 +
    (-2 * t ^ 3 + 3 * t ^ 2) * p1 + (t ^ 3 - t ^ 2) * m1

/-- One axis of `Curve.prototype.cubicHermite(t)`: same segment location as
`linear`, then the Hermite blend using the stored tangents. -/
def cubicHermiteAxis (pts tans : List ℚ) (count : ℕ) (t : ℚ) : ℚ :=
  let n : ℤ := (count : ℤ) - 1
  let ndx0 : ℤ := ⌊t * (n : ℚ)⌋
  let ndx : ℤ := if n ≤ ndx0 then n - 1 else ndx0
  let tt : ℚ := (t - (ndx : ℚ) / (n : ℚ)) /
    (((ndx : ℚ) + 1) / (n : ℚ) - (ndx : ℚ) / (n : ℚ))
  cubicHermiteFn tt (pts.getD ndx.toNat 0) (tans.getD ndx.toNat 0)
    (pts.getD (ndx.toNat + 1) 0) (tans.getD (ndx.toNat + 1) 0)

/-- `Curve.prototype.cubicHermite(t)`, per axis. -/
def Curve.cubicHermite (c : Curve) (t : ℚ) : Pt :=
  (cubicHermiteAxis c.xpts c.xtans c.count t,
   cubicHermiteAxis c.ypts c.ytans c.count t,
   cubicHermiteAxis c.zpts c.ztans c.count t)

/-- `Curve.prototype.linearNorm(t)`: cumulative arc lengths `dpt i` at each
waypoint, total length `d`, arc-length target `tt = t*d`, the last index whose
cumulative length is below the target (a linear scan with a running best,
initial 0), and a linear blend inside that segment.
`hemi.core.math.distance` (Euclidean distance) is not under src: the distance
function is taken as a parameter, and theorems assume exactly the properties
of Euclidean distance they need (nonnegativity, positivity on distinct
consecutive waypoints). -/
def Curve.linearNorm (dist : Pt → Pt → ℚ) (c : Curve) (t : ℚ) : Pt :=
  let dpt : ℕ → ℚ := fun i => ∑ j ∈ Finset.range i, dist (c.pt j) (c.pt (j + 1))
  let d : ℚ := dpt (c.count - 1)
  let tt : ℚ := t * d
  let ndx : ℕ := (List.range c.count).foldl
    (fun acc i => if dpt i < tt then i else acc) 0
  let lt : ℚ := (tt - dpt ndx) / (dpt (ndx + 1) - dpt ndx)
  ((1 - lt) * (c.pt ndx).1 + lt * (c.pt (ndx + 1)).1,
   (1 - lt) * (c.pt ndx).2.1 + lt * (c.pt (ndx + 1)).2.1,
   (1 - lt) * (c.pt ndx).2.2 + lt * (c.pt (ndx + 1)).2.2)

/-- `Curve.prototype.interpolate(t)`: dispatch through the current value of
the mutable method pointer (the prototype default returns `[t,t,t]`). -/
def Curve.interpolate (dist : Pt → Pt → ℚ) (c : Curve) (t : ℚ) : Pt :=
  match c.interp with
  | .dflt => (t, t, t)
  | .linear => c.linear t
  | .bezier => c.bezier t
  | .cubicHermite => c.cubicHermite t
  | .linearNorm => c.linearNorm dist t

/-! ### Helper lemmas for the Curve algorithms -/

/-- A freshly constructed Linear curve, written out. -/
theorem mkCurve_Linear_eq (ps : List Pt) :
    mkCurve ps (some CurveType.Linear) {} =
      { count := ps.length, tension := 0, type := some CurveType.Linear,
        weights := List.replicate ps.length 1,
        xpts := ps.map (fun (p : Pt) => p.1), xtans := List.replicate ps.length 0,
        ypts := ps.map (fun (p : Pt) => p.2.1), ytans := List.replicate ps.length 0,
        zpts := ps.map (fun (p : Pt) => p.2.2), ztans := List.replicate ps.length 0,
        interp := InterpKind.linear } := by
  simp [mkCurve, Curve.loadConfig, newCurve, jsOrType, CurveType.code,
    Curve.setType, Curve.setTangents, overwriteList]

/-- A freshly constructed Bezier curve, written out. -/
theorem mkCurve_Bezier_eq (ps : List Pt) :
    mkCurve ps (some CurveType.Bezier) {} =
      { count := ps.length, tension := 0, type := some CurveType.Bezier,
        weights := List.replicate ps.length 1,
        xpts := ps.map (fun (p : Pt) => p.1), xtans := List.replicate ps.length 0,
        ypts := ps.map (fun (p : Pt) => p.2.1), ytans := List.replicate ps.length 0,
        zpts := ps.map (fun (p : Pt) => p.2.2), ztans := List.replicate ps.length 0,
        interp := InterpKind.bezier } := by
  simp [mkCurve, Curve.loadConfig, newCurve, jsOrType, CurveType.code,
    Curve.setType, Curve.setTangents, overwriteList]

/-- A freshly constructed LinearNorm curve, written out. -/
theorem mkCurve_LinearNorm_eq (ps : List Pt) :
    mkCurve ps (some CurveType.LinearNorm) {} =
      { count := ps.length, tension := 0, type := some CurveType.LinearNorm,
        weights := List.replicate ps.length 1,
        xpts := ps.map (fun (p : Pt) => p.1), xtans := List.replicate ps.length 0,
        ypts := ps.map (fun (p : Pt) => p.2.1), ytans := List.replicate ps.length 0,
        zpts := ps.map (fun (p : Pt) => p.2.2), ztans := List.replicate ps.length 0,
        interp := InterpKind.linearNorm } := by
  simp [mkCurve, Curve.loadConfig, newCurve, jsOrType, CurveType.code,
    Curve.setType, Curve.setTangents, overwriteList]

/-- The fields of a freshly constructed CubicHermite curve with configured
tangents that the endpoint property depends on (the tangents themselves do
not matter at the ends). -/
theorem mkCurve_CubicHermite_proj (ps : List Pt) (tg : List (Option Pt)) :
    (mkCurve ps (some CurveType.CubicHermite) { tangents := some tg }).count =
      ps.length ∧
    (mkCurve ps (some CurveType.CubicHermite) { tangents := some tg }).interp =
      InterpKind.cubicHermite ∧
    (mkCurve ps (some CurveType.CubicHermite) { tangents := some tg }).xpts =
      ps.map (fun (p : Pt) => p.1) ∧
    (mkCurve ps (some CurveType.CubicHermite) { tangents := some tg }).ypts =
      ps.map (fun (p : Pt) => p.2.1) ∧
    (mkCurve ps (some CurveType.CubicHermite) { tangents := some tg }).zpts =
      ps.map (fun (p : Pt) => p.2.2) := by
  refine ⟨?_, ?_, ?_, ?_, ?_⟩ <;>
    simp [mkCurve, Curve.loadConfig, newCurve, jsOrType, CurveType.code,
      Curve.setType, Curve.setTangents, overwriteList]

/-- The fields of a freshly constructed Cardinal curve: tension stored (the
truthiness check makes no difference since the initial tension is 0), tangent
arrays recomputed by `setTangents` from the axis positions. -/
theorem mkCurve_Cardinal_proj (ps : List Pt) (τ : ℚ) :
    (mkCurve ps (some CurveType.Cardinal) { tension := τ }).count = ps.length ∧
    (mkCurve ps (some CurveType.Cardinal) { tension := τ }).tension = τ ∧
    (mkCurve ps (some CurveType.Cardinal) { tension := τ }).xtans =
      setTangentsVals (ps.map (fun (p : Pt) => p.1)) ps.length τ ∧
    (mkCurve ps (some CurveType.Cardinal) { tension := τ }).ytans =
      setTangentsVals (ps.map (fun (p : Pt) => p.2.1)) ps.length τ ∧
    (mkCurve ps (some CurveType.Cardinal) { tension := τ }).ztans =
      setTangentsVals (ps.map (fun (p : Pt) => p.2.2)) ps.length τ := by
  by_cases hτ : τ = 0 <;>
    refine ⟨?_, ?_, ?_, ?_, ?_⟩ <;>
      simp [mkCurve, Curve.loadConfig, newCurve, jsOrType, CurveType.code,
        Curve.setType, Curve.setTangents, overwriteList, hτ, setTangentsVals]

/-- `getD` through a projection map of the waypoint list (for the three axis
projections, which send the zero point to the zero default). -/
theorem getD_map_proj (f : Pt → ℚ) (hf : f (0, 0, 0) = 0) (ps : List Pt) (i : ℕ) :
    (ps.map f).getD i 0 = f (ps.getD i (0, 0, 0)) := by
  rcases Nat.lt_or_ge i ps.length with hlt | hge
  · rw [List.getD_eq_getElem _ _ (by simp [hlt]), List.getElem_map,
      List.getD_eq_getElem _ _ hlt]
  · rw [List.getD_eq_getElem?_getD, List.getElem?_eq_none (by simp; omega),
      List.getD_eq_getElem?_getD, List.getElem?_eq_none (by omega)]
    simp only [Option.getD_none]
    exact hf.symm

/-- The reassembled waypoint of a curve whose axis arrays are the three
projections of `ps` is just the `ps` entry (or the zero point out of range). -/
theorem Curve.pt_of_fields (c : Curve) (ps : List Pt)
    (hx : c.xpts = ps.map (fun (p : Pt) => p.1))
    (hy : c.ypts = ps.map (fun (p : Pt) => p.2.1))
    (hz : c.zpts = ps.map (fun (p : Pt) => p.2.2)) (i : ℕ) :
    c.pt i = ps.getD i (0, 0, 0) := by
  rw [Curve.pt, hx, hy, hz, getD_map_proj _ rfl, getD_map_proj _ rfl,
    getD_map_proj _ rfl]

/-- `linear` at `t = 0` lands on segment 0 with local parameter 0. -/
theorem linearAxis_zero (pts : List ℚ) (count : ℕ) (h2 : 2 ≤ count) :
    linearAxis pts count 0 = pts.getD 0 0 := by
  simp only [linearAxis]
  rw [if_neg (by simp [Int.floor_intCast]; omega)]
  norm_num

/-- `linear` at `t = 1`: the raw index `n` is clamped to `n - 1` and the local
parameter works out to exactly 1, so the last waypoint is returned. -/
theorem linearAxis_one (pts : List ℚ) (count : ℕ) (h2 : 2 ≤ count) :
    linearAxis pts count 1 = pts.getD (count - 1) 0 := by
  have hn : (1 : ℤ) ≤ (count : ℤ) - 1 := by omega
  simp only [linearAxis]
  rw [one_mul, Int.floor_intCast, if_pos (le_refl _)]
  have htt : ((1 : ℚ) - (((count : ℤ) - 1 - 1 : ℤ) : ℚ) / (((count : ℤ) - 1 : ℤ) : ℚ)) /
      (((((count : ℤ) - 1 - 1 : ℤ) : ℚ) + 1) / (((count : ℤ) - 1 : ℤ) : ℚ) -
        (((count : ℤ) - 1 - 1 : ℤ) : ℚ) / (((count : ℤ) - 1 : ℤ) : ℚ)) = 1 := by
    have hq : ((count : ℚ) - 1) ≠ 0 := by
      have h2q : (2 : ℚ) ≤ (count : ℚ) := by exact_mod_cast h2
      intro hzero
      have : (count : ℚ) = 1 := by linarith
      linarith
    push_cast
    field_simp
  rw [htt]
  have hidx : ((count : ℤ) - 1 - 1).toNat = count - 2 := by omega
  rw [hidx, show count - 2 + 1 = count - 1 from by omega]
  ring

/-- `cubicHermite` at `t = 0`: the Hermite basis collapses to the left
endpoint regardless of the stored tangents. -/
theorem cubicHermiteAxis_zero (pts tans : List ℚ) (count : ℕ) (h2 : 2 ≤ count) :
    cubicHermiteAxis pts tans count 0 = pts.getD 0 0 := by
  simp only [cubicHermiteAxis]
  rw [if_neg (by simp [Int.floor_intCast]; omega)]
  norm_num [cubicHermiteFn]

/-- `cubicHermite` at `t = 1`: the basis collapses to the right endpoint. -/
theorem cubicHermiteAxis_one (pts tans : List ℚ) (count : ℕ) (h2 : 2 ≤ count) :
    cubicHermiteAxis pts tans count 1 = pts.getD (count - 1) 0 := by
  have hn : (1 : ℤ) ≤ (count : ℤ) - 1 := by omega
  simp only [cubicHermiteAxis]
  rw [one_mul, Int.floor_intCast, if_pos (le_refl _)]
  have htt : ((1 : ℚ) - (((count : ℤ) - 1 - 1 : ℤ) : ℚ) / (((count : ℤ) - 1 : ℤ) : ℚ)) /
      (((((count : ℤ) - 1 - 1 : ℤ) : ℚ) + 1) / (((count : ℤ) - 1 : ℤ) : ℚ) -
        (((count : ℤ) - 1 - 1 : ℤ) : ℚ) / (((count : ℤ) - 1 : ℤ) : ℚ)) = 1 := by
    have hq : ((count : ℚ) - 1) ≠ 0 := by
      have h2q : (2 : ℚ) ≤ (count : ℚ) := by exact_mod_cast h2
      intro hzero
      have : (count : ℚ) = 1 := by linarith
      linarith
    push_cast
    field_simp
  rw [htt]
  have hidx : ((count : ℤ) - 1 - 1).toNat = count - 2 := by omega
  rw [hidx, show count - 2 + 1 = count - 1 from by omega]
  norm_num [cubicHermiteFn]

/-- At `t = 0` the Bernstein basis concentrates all weight on index 0 (with
the unit weights a fresh construction installs). -/
theorem Curve.bezier_zero (c : Curve) (h2 : 2 ≤ c.count)
    (hw : c.weights = List.replicate c.count 1) :
    c.bezier 0 = c.pt 0 := by
  have key : ∀ h : List ℚ,
      (∑ i ∈ Finset.range c.count,
        (c.weights.getD i 0 * (Nat.choose (c.count - 1) i : ℚ) * (0 : ℚ) ^ i *
          (1 - 0) ^ (c.count - 1 - i)) * h.getD i 0) = h.getD 0 0 := by
    intro h
    rw [Finset.sum_eq_single_of_mem 0 (Finset.mem_range.mpr (by omega))]
    · rw [hw, List.getD_eq_getElem _ _ (by simp; omega)]
      simp
    · intro b _ hb
      simp [zero_pow hb]
  have keyw : (∑ i ∈ Finset.range c.count,
      (c.weights.getD i 0 * (Nat.choose (c.count - 1) i : ℚ) * (0 : ℚ) ^ i *
        (1 - 0) ^ (c.count - 1 - i))) = 1 := by
    rw [Finset.sum_eq_single_of_mem 0 (Finset.mem_range.mpr (by omega))]
    · rw [hw, List.getD_eq_getElem _ _ (by simp; omega)]
      simp
    · intro b _ hb
      simp [zero_pow hb]
  simp only [Curve.bezier, key, keyw, Curve.pt, div_one]

/-- At `t = 1` the Bernstein basis concentrates all weight on the last
index. -/
theorem Curve.bezier_one (c : Curve) (h2 : 2 ≤ c.count)
    (hw : c.weights = List.replicate c.count 1) :
    c.bezier 1 = c.pt (c.count - 1) := by
  have key : ∀ h : List ℚ,
      (∑ i ∈ Finset.range c.count,
        (c.weights.getD i 0 * (Nat.choose (c.count - 1) i : ℚ) * (1 : ℚ) ^ i *
          (1 - 1) ^ (c.count - 1 - i)) * h.getD i 0) = h.getD (c.count - 1) 0 := by
    intro h
    rw [Finset.sum_eq_single_of_mem (c.count - 1) (Finset.mem_range.mpr (by omega))]
    · rw [hw, List.getD_eq_getElem _ _ (by simp; omega)]
      simp [Nat.choose_self]
    · intro b hbmem hb
      have hblt : b < c.count := Finset.mem_range.mp hbmem
      simp [zero_pow (by omega : c.count - 1 - b ≠ 0)]
  have keyw : (∑ i ∈ Finset.range c.count,
      (c.weights.getD i 0 * (Nat.choose (c.count - 1) i : ℚ) * (1 : ℚ) ^ i *
        (1 - 1) ^ (c.count - 1 - i))) = 1 := by
    rw [Finset.sum_eq_single_of_mem (c.count - 1) (Finset.mem_range.mpr (by omega))]
    · rw [hw, List.getD_eq_getElem _ _ (by simp; omega)]
      simp [Nat.choose_self]
    · intro b hbmem hb
      have hblt : b < c.count := Finset.mem_range.mp hbmem
      simp [zero_pow (by omega : c.count - 1 - b ≠ 0)]
  simp only [Curve.bezier, key, keyw, Curve.pt, div_one]

/-- The running-best loop over `range n` returns its initial value when no
index satisfies the test. -/
theorem range_foldl_if_none (P : ℕ → Prop) [DecidablePred P] (n a : ℕ)
    (h : ∀ i, i < n → ¬ P i) :
    (List.range n).foldl (fun acc i => if P i then i else acc) a = a := by
  induction n with
  | zero => rfl
  | succ n ih =>
    rw [List.range_succ, List.foldl_append]
    simp only [List.foldl_cons, List.foldl_nil, if_neg (h n (by omega))]
    exact ih (fun i hi => h i (by omega))

/-- The running-best loop over `range n` returns `k` when `k` satisfies the
test and no later index does. -/
theorem range_foldl_if_last (P : ℕ → Prop) [DecidablePred P] (n a k : ℕ)
    (hk : k < n) (hPk : P k) (hafter : ∀ i, k < i → i < n → ¬ P i) :
    (List.range n).foldl (fun acc i => if P i then i else acc) a = k := by
  induction n with
  | zero => omega
  | succ n ih =>
    rw [List.range_succ, List.foldl_append]
    simp only [List.foldl_cons, List.foldl_nil]
    rcases Nat.lt_or_ge k n with hlt | hge
    · rw [if_neg (hafter n (by omega) (by omega))]
      exact ih hlt (fun i h1 h2 => hafter i h1 (by omega))
    · have hkn : k = n := by omega
      subst hkn
      rw [if_pos hPk]

/-- `linearNorm` at `t = 0`: the arc-length target is 0, no cumulative length
is below it (they are sums of nonnegative distances), so segment 0 with local
parameter 0 is used. -/
theorem Curve.linearNorm_zero (dist : Pt → Pt → ℚ) (c : Curve)
    (hnn : ∀ j, j + 1 < c.count → 0 ≤ dist (c.pt j) (c.pt (j + 1))) :
    c.linearNorm dist 0 = c.pt 0 := by
  simp only [Curve.linearNorm, zero_mul]
  have hfold : (List.range c.count).foldl
      (fun acc i => if (∑ j ∈ Finset.range i, dist (c.pt j) (c.pt (j + 1))) < 0
        then i else acc) 0 = 0 := by
    refine range_foldl_if_none _ _ _ (fun i hi => ?_)
    have : 0 ≤ ∑ j ∈ Finset.range i, dist (c.pt j) (c.pt (j + 1)) :=
      Finset.sum_nonneg (fun j hj => hnn j (by
        have := Finset.mem_range.mp hj
        omega))
    exact not_lt.mpr this
  rw [hfold]
  simp only [Finset.range_zero, Finset.sum_empty, sub_zero, zero_sub, Curve.pt]
  norm_num

/-- `linearNorm` at `t = 1`: the arc-length target is the total length, the
last cumulative length strictly below it is at index `count - 2` (the final
segment has positive length), and the local parameter works out to exactly
1. -/
theorem Curve.linearNorm_one (dist : Pt → Pt → ℚ) (c : Curve) (h2 : 2 ≤ c.count)
    (hlast : 0 < dist (c.pt (c.count - 2)) (c.pt (c.count - 1))) :
    c.linearNorm dist 1 = c.pt (c.count - 1) := by
  have hsplit : (∑ j ∈ Finset.range (c.count - 1), dist (c.pt j) (c.pt (j + 1))) =
      (∑ j ∈ Finset.range (c.count - 2), dist (c.pt j) (c.pt (j + 1))) +
        dist (c.pt (c.count - 2)) (c.pt (c.count - 1)) := by
    rw [show c.count - 1 = (c.count - 2) + 1 from by omega, Finset.sum_range_succ,
      show c.count - 2 + 1 = c.count - 1 from by omega]
  simp only [Curve.linearNorm, one_mul]
  have hfold : (List.range c.count).foldl
      (fun acc i => if (∑ j ∈ Finset.range i, dist (c.pt j) (c.pt (j + 1))) <
          (∑ j ∈ Finset.range (c.count - 1), dist (c.pt j) (c.pt (j + 1)))
        then i else acc) 0 = c.count - 2 := by
    refine range_foldl_if_last _ _ _ (c.count - 2) (by omega) ?_ ?_
    · rw [hsplit]
      linarith [hlast]
    · intro i h1 h2i
      have hie : i = c.count - 1 := by omega
      subst hie
      simp
  rw [hfold]
  rw [show c.count - 2 + 1 = c.count - 1 from by omega, hsplit]
  have hd : dist (c.pt (c.count - 2)) (c.pt (c.count - 1)) ≠ 0 := ne_of_gt hlast
  field_simp

/-- `getLastD` is `getD` at the last index. -/
theorem getLastD_eq_getD (xs : List ℚ) :
    xs.getLastD 0 = xs.getD (xs.length - 1) 0 := by
  rw [List.getLastD_eq_getLast?, List.getLast?_eq_getElem?, List.getD_eq_getElem?_getD]

/-- The cardinal tangent value at waypoint `i`: unfolding the
first/last-duplicated extension array gives the claim's virtual-neighbor
formula `(1 - tension) * (p[min(i+1, n-1)] - p[i-1]) / 2` (with `ℕ`
truncation `0 - 1 = 0` implementing the duplicated first point). -/
theorem setTangentsVals_getD (xs : List ℚ) (n : ℕ) (τ : ℚ) (i : ℕ)
    (hi : i < n) (hlen : xs.length = n) :
    (setTangentsVals xs n τ).getD i 0 =
      (1 - τ) * (xs.getD (min (i + 1) (n - 1)) 0 - xs.getD (i - 1) 0) / 2 := by
  have hmap : (setTangentsVals xs n τ).getD i 0 =
      (1 - τ) * (((xs.headD 0 :: (xs ++ [xs.getLastD 0])).getD (i + 2) 0) -
        ((xs.headD 0 :: (xs ++ [xs.getLastD 0])).getD i 0)) / 2 := by
    rw [setTangentsVals]
    rw [List.getD_eq_getElem _ _
      (by simp only [List.length_map, List.length_range]; omega)]
    simp only [List.getElem_map, List.getElem_range]
  rw [hmap]
  have hup : (xs.headD 0 :: (xs ++ [xs.getLastD 0])).getD (i + 2) 0 =
      xs.getD (min (i + 1) (n - 1)) 0 := by
    rw [show i + 2 = (i + 1) + 1 from rfl, List.getD_cons_succ]
    rcases Nat.lt_or_ge (i + 1) n with hlt | hge
    · rw [List.getD_eq_getElem _ _ (by simp; omega),
        List.getElem_append_left (by omega),
        show min (i + 1) (n - 1) = i + 1 from by omega]
      exact (List.getD_eq_getElem _ _ (by omega)).symm
    · rw [List.getD_eq_getElem _ _ (by simp; omega),
        List.getElem_append_right (by omega)]
      rw [show min (i + 1) (n - 1) = n - 1 from by omega]
      have h0 : i + 1 - xs.length = 0 := by omega
      simp only [h0, List.getElem_cons_zero]
      rw [getLastD_eq_getD, hlen]
  have hdown : (xs.headD 0 :: (xs ++ [xs.getLastD 0])).getD i 0 =
      xs.getD (i - 1) 0 := by
    rcases Nat.eq_zero_or_pos i with h0 | hpos
    · subst h0
      rw [List.getD_cons_zero]
      cases xs with
      | nil => simp at hlen; omega
      | cons a l => rfl
    · rw [show i = (i - 1) + 1 from by omega, List.getD_cons_succ]
      rw [List.getD_eq_getElem _ _ (by simp; omega),
        List.getElem_append_left (by omega)]
      exact (List.getD_eq_getElem _ _ (by omega)).symm
  rw [hup, hdown]


/-! ### Claim theorems: Curve interpolation and tangents -/

/-- C1: for every Curve built from at least two waypoints, `interpolate(0)`
returns the first waypoint and `interpolate(1)` the last, exactly over `ℚ`,
for the Linear, Bezier, CubicHermite (with whatever tangents were configured)
and LinearNorm types; for LinearNorm under the precondition that every pair of
consecutive waypoints is at strictly positive distance (the arc-length
distance function is a parameter standing for the external Euclidean
`hemi.core.math.distance`, which is nonnegative and vanishes only between
identical points). -/
theorem curve_interpolate_endpoints (ps : List Pt) (h2 : 2 ≤ ps.length)
    (tg : List (Option Pt)) (dist : Pt → Pt → ℚ)
    (hdist : ∀ j, j + 1 < ps.length →
      0 < dist (ps.getD j (0, 0, 0)) (ps.getD (j + 1) (0, 0, 0))) :
    Curve.interpolate dist (mkCurve ps (some CurveType.Linear) {}) 0 =
      ps.getD 0 (0, 0, 0) ∧
    Curve.interpolate dist (mkCurve ps (some CurveType.Linear) {}) 1 =
      ps.getD (ps.length - 1) (0, 0, 0) ∧
    Curve.interpolate dist (mkCurve ps (some CurveType.Bezier) {}) 0 =
      ps.getD 0 (0, 0, 0) ∧
    Curve.interpolate dist (mkCurve ps (some CurveType.Bezier) {}) 1 =
      ps.getD (ps.length - 1) (0, 0, 0) ∧
    Curve.interpolate dist
      (mkCurve ps (some CurveType.CubicHermite) { tangents := some tg }) 0 =
      ps.getD 0 (0, 0, 0) ∧
    Curve.interpolate dist
      (mkCurve ps (some CurveType.CubicHermite) { tangents := some tg }) 1 =
      ps.getD (ps.length - 1) (0, 0, 0) ∧
    Curve.interpolate dist (mkCurve ps (some CurveType.LinearNorm) {}) 0 =
      ps.getD 0 (0, 0, 0) ∧
    Curve.interpolate dist (mkCurve ps (some CurveType.LinearNorm) {}) 1 =
      ps.getD (ps.length - 1) (0, 0, 0) := by
  refine ⟨?_, ?_, ?_, ?_, ?_, ?_, ?_, ?_⟩
  · rw [mkCurve_Linear_eq]
    show Curve.linear _ 0 = _
    rw [Curve.linear]
    simp only [linearAxis_zero _ _ h2,
      getD_map_proj (fun (p : Pt) => p.1) rfl,
      getD_map_proj (fun (p : Pt) => p.2.1) rfl,
      getD_map_proj (fun (p : Pt) => p.2.2) rfl]
  · rw [mkCurve_Linear_eq]
    show Curve.linear _ 1 = _
    rw [Curve.linear]
    simp only [linearAxis_one _ _ h2,
      getD_map_proj (fun (p : Pt) => p.1) rfl,
      getD_map_proj (fun (p : Pt) => p.2.1) rfl,
      getD_map_proj (fun (p : Pt) => p.2.2) rfl]
  · rw [mkCurve_Bezier_eq]
    show Curve.bezier _ 0 = _
    rw [Curve.bezier_zero _ h2 rfl, Curve.pt_of_fields _ ps rfl rfl rfl]
  · rw [mkCurve_Bezier_eq]
    show Curve.bezier _ 1 = _
    rw [Curve.bezier_one _ h2 rfl, Curve.pt_of_fields _ ps rfl rfl rfl]
  · obtain ⟨hcnt, hint, hx, hy, hz⟩ := mkCurve_CubicHermite_proj ps tg
    rw [Curve.interpolate, hint]
    show Curve.cubicHermite _ 0 = _
    rw [Curve.cubicHermite, hcnt, hx, hy, hz]
    simp only [cubicHermiteAxis_zero _ _ _ h2,
      getD_map_proj (fun (p : Pt) => p.1) rfl,
      getD_map_proj (fun (p : Pt) => p.2.1) rfl,
      getD_map_proj (fun (p : Pt) => p.2.2) rfl]
  · obtain ⟨hcnt, hint, hx, hy, hz⟩ := mkCurve_CubicHermite_proj ps tg
    rw [Curve.interpolate, hint]
    show Curve.cubicHermite _ 1 = _
    rw [Curve.cubicHermite, hcnt, hx, hy, hz]
    simp only [cubicHermiteAxis_one _ _ _ h2,
      getD_map_proj (fun (p : Pt) => p.1) rfl,
      getD_map_proj (fun (p : Pt) => p.2.1) rfl,
      getD_map_proj (fun (p : Pt) => p.2.2) rfl]
  · rw [mkCurve_LinearNorm_eq]
    show Curve.linearNorm dist _ 0 = _
    rw [Curve.linearNorm_zero dist _ (fun j hj => ?_),
      Curve.pt_of_fields _ ps rfl rfl rfl]
    rw [Curve.pt_of_fields _ ps rfl rfl rfl, Curve.pt_of_fields _ ps rfl rfl rfl]
    exact le_of_lt (hdist j hj)
  · rw [mkCurve_LinearNorm_eq]
    show Curve.linearNorm dist _ 1 = _
    rw [Curve.linearNorm_one dist _ h2 ?_, Curve.pt_of_fields _ ps rfl rfl rfl]
    rw [Curve.pt_of_fields _ ps rfl rfl rfl, Curve.pt_of_fields _ ps rfl rfl rfl]
    have hcons := hdist (ps.length - 2) (by omega)
    rw [show ps.length - 2 + 1 = ps.length - 1 from by omega] at hcons
    exact hcons
/-- Witness for C1 at three concrete waypoints and the discrete distance
function (positive on the distinct consecutive waypoints). -/
theorem curve_interpolate_endpoints_witness :
    (2 ≤ ([((0 : ℚ), (0 : ℚ), (0 : ℚ)), ((1 : ℚ), (2 : ℚ), (3 : ℚ)),
        ((4 : ℚ), (5 : ℚ), (6 : ℚ))] : List Pt).length) ∧
    (0 : ℚ) < (fun p q : Pt => if p = q then 0 else 1)
      ((0 : ℚ), (0 : ℚ), (0 : ℚ)) ((1 : ℚ), (2 : ℚ), (3 : ℚ)) ∧
    (0 : ℚ) < (fun p q : Pt => if p = q then 0 else 1)
      ((1 : ℚ), (2 : ℚ), (3 : ℚ)) ((4 : ℚ), (5 : ℚ), (6 : ℚ)) ∧
    Curve.interpolate (fun p q : Pt => if p = q then 0 else 1)
      (mkCurve [((0 : ℚ), (0 : ℚ), (0 : ℚ)), ((1 : ℚ), (2 : ℚ), (3 : ℚ)),
        ((4 : ℚ), (5 : ℚ), (6 : ℚ))] (some CurveType.Linear) {}) 0 =
      ((0 : ℚ), (0 : ℚ), (0 : ℚ)) ∧
    Curve.interpolate (fun p q : Pt => if p = q then 0 else 1)
      (mkCurve [((0 : ℚ), (0 : ℚ), (0 : ℚ)), ((1 : ℚ), (2 : ℚ), (3 : ℚ)),
        ((4 : ℚ), (5 : ℚ), (6 : ℚ))] (some CurveType.LinearNorm) {}) 1 =
      ((4 : ℚ), (5 : ℚ), (6 : ℚ)) := by
  have hd : ∀ j, j + 1 < ([((0 : ℚ), (0 : ℚ), (0 : ℚ)), ((1 : ℚ), (2 : ℚ), (3 : ℚ)),
      ((4 : ℚ), (5 : ℚ), (6 : ℚ))] : List Pt).length →
      (0 : ℚ) < (fun p q : Pt => if p = q then 0 else 1)
        (([((0 : ℚ), (0 : ℚ), (0 : ℚ)), ((1 : ℚ), (2 : ℚ), (3 : ℚ)),
          ((4 : ℚ), (5 : ℚ), (6 : ℚ))] : List Pt).getD j (0, 0, 0))
        (([((0 : ℚ), (0 : ℚ), (0 : ℚ)), ((1 : ℚ), (2 : ℚ), (3 : ℚ)),
          ((4 : ℚ), (5 : ℚ), (6 : ℚ))] : List Pt).getD (j + 1) (0, 0, 0)) := by
    intro j hj
    have hj2 : j < 2 := by
      simp only [List.length_cons, List.length_nil] at hj
      omega
    interval_cases j <;>
      · show (0 : ℚ) < if _ then _ else _
        rw [if_neg (by norm_num [Prod.ext_iff])]
        norm_num
  have h := curve_interpolate_endpoints
    [((0 : ℚ), (0 : ℚ), (0 : ℚ)), ((1 : ℚ), (2 : ℚ), (3 : ℚ)),
      ((4 : ℚ), (5 : ℚ), (6 : ℚ))] (by norm_num) []
    (fun p q : Pt => if p = q then 0 else 1) hd
  exact ⟨by norm_num, hd 0 (by norm_num), hd 1 (by norm_num), h.1,
    h.2.2.2.2.2.2.2⟩
/-- C4: after construction (whose `loadConfig` ends in `setTangents`), a
Cardinal curve's stored tangent at waypoint `i` is, per axis,
`(1 - tension) * (p[i+1] - p[i-1]) / 2` with the first and last waypoints
duplicated as virtual neighbors (`p[-1] = p[0]`, `p[N] = p[N-1]`); and
`setTangents` on a curve of any non-Cardinal type changes nothing. -/
theorem cardinal_tangents_formula (ps : List Pt) (τ : ℚ) (i : ℕ)
    (hi : i < ps.length) :
    ((mkCurve ps (some CurveType.Cardinal) { tension := τ }).xtans.getD i 0 =
      (1 - τ) * ((ps.getD (min (i + 1) (ps.length - 1)) (0, 0, 0)).1 -
        (ps.getD (i - 1) (0, 0, 0)).1) / 2) ∧
    ((mkCurve ps (some CurveType.Cardinal) { tension := τ }).ytans.getD i 0 =
      (1 - τ) * ((ps.getD (min (i + 1) (ps.length - 1)) (0, 0, 0)).2.1 -
        (ps.getD (i - 1) (0, 0, 0)).2.1) / 2) ∧
    ((mkCurve ps (some CurveType.Cardinal) { tension := τ }).ztans.getD i 0 =
      (1 - τ) * ((ps.getD (min (i + 1) (ps.length - 1)) (0, 0, 0)).2.2 -
        (ps.getD (i - 1) (0, 0, 0)).2.2) / 2) ∧
    (∀ c : Curve, c.type ≠ some CurveType.Cardinal → c.setTangents = c) := by
  obtain ⟨hcnt, htn, hx, hy, hz⟩ := mkCurve_Cardinal_proj ps τ
  refine ⟨?_, ?_, ?_, ?_⟩
  · rw [hx, setTangentsVals_getD _ _ _ _ hi (by simp),
      getD_map_proj (fun (p : Pt) => p.1) rfl,
      getD_map_proj (fun (p : Pt) => p.1) rfl]
  · rw [hy, setTangentsVals_getD _ _ _ _ hi (by simp),
      getD_map_proj (fun (p : Pt) => p.2.1) rfl,
      getD_map_proj (fun (p : Pt) => p.2.1) rfl]
  · rw [hz, setTangentsVals_getD _ _ _ _ hi (by simp),
      getD_map_proj (fun (p : Pt) => p.2.2) rfl,
      getD_map_proj (fun (p : Pt) => p.2.2) rfl]
  · intro c hc
    rw [Curve.setTangents, if_neg hc]

/-- Witness for C4 at three concrete waypoints, tension 3, index 1. -/
theorem cardinal_tangents_formula_witness :
    (1 < ([((0 : ℚ), (0 : ℚ), (0 : ℚ)), ((6 : ℚ), (0 : ℚ), (2 : ℚ)),
        ((0 : ℚ), (12 : ℚ), (4 : ℚ))] : List Pt).length) ∧
    ((mkCurve [((0 : ℚ), (0 : ℚ), (0 : ℚ)), ((6 : ℚ), (0 : ℚ), (2 : ℚ)),
        ((0 : ℚ), (12 : ℚ), (4 : ℚ))] (some CurveType.Cardinal)
        { tension := 3 }).xtans.getD 1 0 =
      (1 - 3) * ((([((0 : ℚ), (0 : ℚ), (0 : ℚ)), ((6 : ℚ), (0 : ℚ), (2 : ℚ)),
        ((0 : ℚ), (12 : ℚ), (4 : ℚ))] : List Pt).getD
          (min (1 + 1) (([((0 : ℚ), (0 : ℚ), (0 : ℚ)), ((6 : ℚ), (0 : ℚ), (2 : ℚ)),
            ((0 : ℚ), (12 : ℚ), (4 : ℚ))] : List Pt).length - 1)) (0, 0, 0)).1 -
        (([((0 : ℚ), (0 : ℚ), (0 : ℚ)), ((6 : ℚ), (0 : ℚ), (2 : ℚ)),
          ((0 : ℚ), (12 : ℚ), (4 : ℚ))] : List Pt).getD (1 - 1) (0, 0, 0)).1) / 2) :=
  ⟨by norm_num,
   (cardinal_tangents_formula
     [((0 : ℚ), (0 : ℚ), (0 : ℚ)), ((6 : ℚ), (0 : ℚ), (2 : ℚ)),
       ((0 : ℚ), (12 : ℚ), (4 : ℚ))] 3 1 (by norm_num)).1⟩

/-! ### The CPU-path ParticleCurveSystem scheduler -/

/-- Scheduler state of a CPU-path `ParticleCurveSystem`: the active flag, the
particle pool, emission rate/timer state and the round-robin cursor.  The
constructor work of sampling random Cardinal curves through the boxes into
per-particle point arrays draws `Math.random()` and builds scene-graph
objects; the pool contents are therefore taken as a parameter. -/
structure ParticleCurveSystem where
  active : Bool
  pLife : ℚ
  maxParticles : ℕ
  maxRate : ℚ
  particles : List (Option Particle)
  pRate : ℚ
  pTimer : ℚ
  pTimerMax : ℚ
  pIndex : ℕ
deriving DecidableEq

/-- The scheduler fields the `ParticleCurveSystem` constructor computes:
`maxRate = Math.ceil(particleCount / life)`, `pRate = maxRate`,
`pTimerMax = 1 / pRate`, timer and cursor zeroed, inactive. -/
def mkParticleCurveSystem (particleCount : ℕ) (life : ℚ)
    (particles : List (Option Particle)) : ParticleCurveSystem :=
  let maxRate : ℚ := ((⌈(particleCount : ℚ) / life⌉ : ℤ) : ℚ)
  { active := false, pLife := life, maxParticles := particleCount,
    maxRate := maxRate, particles := particles, pRate := maxRate,
    pTimer := 0, pTimerMax := 1 / maxRate, pIndex := 0 }

/-- Modelled from the spec: `hemi.utils.clamp` is not under src; the spec
says `setRate` "clamps to [0, maxRate]". -/
def clamp (val lo hi : ℚ) : ℚ := min hi (max lo val)

/-- `ParticleCurveSystem.prototype.start()`. -/
def ParticleCurveSystem.start (sys : ParticleCurveSystem) : ParticleCurveSystem :=
  { sys with active := true }

/-- `ParticleCurveSystem.prototype.stop(opt_hard)`: always clears `active`; a
hard stop also resets every non-destroyed particle immediately. -/
def ParticleCurveSystem.stop (sys : ParticleCurveSystem) (opt_hard : Bool) :
    ParticleCurveSystem :=
  let sys := { sys with active := false }
  if opt_hard then
    { sys with particles := sys.particles.map (Option.map Particle.reset) }
  else sys

/-- `ParticleCurveSystem.prototype.setRate(rate)`: clamp, stop on zero,
auto-start on a 0-to-positive transition, store timer period and rate, return
the clamped rate. -/
def ParticleCurveSystem.setRate (sys : ParticleCurveSystem) (rate : ℚ) :
    ParticleCurveSystem × ℚ :=
  let newRate := clamp rate 0 sys.maxRate
  if newRate = 0 then
    let sys := { sys with pTimerMax := 0 }
    let sys := sys.stop false
    ({ sys with pRate := newRate }, newRate)
  else
    let sys := if sys.pRate = 0 ∧ 0 < newRate then sys.start else sys
    let sys := { sys with pTimerMax := 1 / newRate }
    ({ sys with pRate := newRate }, newRate)

/-- `ParticleCurveSystem.prototype.onRender(event)`: update every non-null
particle first; only then, if the system is active, accumulate the timer and
on expiry launch the cursor particle if it is ready (JS would throw on a null
cursor slot; modelled as a skip — the constructor never leaves null slots)
and advance the cursor modulo the pool size. -/
def ParticleCurveSystem.onRender (sys : ParticleCurveSystem) (elapsedTime : ℚ) :
    ParticleCurveSystem :=
  let sys := { sys with particles := sys.particles.map (Option.map Particle.update) }
  if sys.active = false then sys
  else
    let sys := { sys with pTimer := sys.pTimer + elapsedTime }
    if sys.pTimerMax ≤ sys.pTimer then
      let sys := { sys with pTimer := 0 }
      let sys :=
        match sys.particles.getD sys.pIndex none with
        | some p =>
          if p.ready then
            { sys with particles :=
                sys.particles.set sys.pIndex (some (Particle.run 1 p)) }
          else sys
        | none => sys
      let sys := { sys with pIndex := sys.pIndex + 1 }
      if sys.maxParticles ≤ sys.pIndex then { sys with pIndex := 0 } else sys
    else sys

/-- `getD` through a map over the option-particle pool. -/
theorem getD_map_option (l : List (Option Particle)) (f : Particle → Particle)
    (i : ℕ) :
    (l.map (Option.map f)).getD i none = (l.getD i none).map f := by
  rcases Nat.lt_or_ge i l.length with hlt | hge
  · rw [List.getD_eq_getElem _ _ (by simp [hlt]), List.getElem_map,
      List.getD_eq_getElem _ _ hlt]
  · rw [List.getD_eq_getElem?_getD, List.getElem?_eq_none (by simp; omega),
      List.getD_eq_getElem?_getD, List.getElem?_eq_none (by omega)]
    rfl

/-- `getD` at a freshly `set` index. -/
theorem getD_set_self (l : List (Option Particle)) (i : ℕ) (v : Option Particle)
    (h : i < l.length) :
    (l.set i v).getD i none = v := by
  rw [List.getD_eq_getElem _ _ (by simp [h]), List.getElem_set_self]

/-- `getD` away from a `set` index. -/
theorem getD_set_ne (l : List (Option Particle)) (i j : ℕ) (v : Option Particle)
    (h : i ≠ j) :
    (l.set i v).getD j none = l.getD j none := by
  rcases Nat.lt_or_ge j l.length with hlt | hge
  · rw [List.getD_eq_getElem _ _ (by simp [hlt]), List.getElem_set_ne h,
      List.getD_eq_getElem _ _ hlt]
  · rw [List.getD_eq_getElem?_getD, List.getElem?_eq_none (by simp; omega),
      List.getD_eq_getElem?_getD, List.getElem?_eq_none (by omega)]

/-- An inactive system's tick only updates the particles. -/
theorem ParticleCurveSystem.onRender_inactive (sys : ParticleCurveSystem) (e : ℚ)
    (ha : sys.active = false) :
    sys.onRender e =
      { sys with particles := sys.particles.map (Option.map Particle.update) } := by
  simp [ParticleCurveSystem.onRender, ha]

/-- An active tick below the timer threshold updates particles and
accumulates the timer. -/
theorem ParticleCurveSystem.onRender_noEmit (sys : ParticleCurveSystem) (e : ℚ)
    (ha : sys.active = true) (ht : ¬ (sys.pTimerMax ≤ sys.pTimer + e)) :
    sys.onRender e =
      { sys with particles := sys.particles.map (Option.map Particle.update),
                 pTimer := sys.pTimer + e } := by
  simp [ParticleCurveSystem.onRender, ha, ht]

/-- An active tick at or past the timer threshold: particles update, the
timer resets, the ready cursor particle (if any) is launched with `run(1)`,
and the cursor advances modulo the pool size. -/
theorem ParticleCurveSystem.onRender_emit (sys : ParticleCurveSystem) (e : ℚ)
    (ha : sys.active = true) (ht : sys.pTimerMax ≤ sys.pTimer + e) :
    sys.onRender e =
      (let l := sys.particles.map (Option.map Particle.update)
       let l2 :=
         match l.getD sys.pIndex none with
         | some p => if p.ready then l.set sys.pIndex (some (Particle.run 1 p)) else l
         | none => l
       { sys with particles := l2, pTimer := 0,
                  pIndex := if sys.maxParticles ≤ sys.pIndex + 1 then 0
                            else sys.pIndex + 1 }) := by
  simp only [ParticleCurveSystem.onRender, ha]
  rw [if_neg (by simp), if_pos ht]
  rcases hslot : (sys.particles.map (Option.map Particle.update)).getD
      sys.pIndex none with _ | q
  · simp only [hslot]
    split <;> rfl
  · simp only [hslot]
    rcases hq : q.ready with _ | _ <;> simp only [hq, Bool.false_eq_true, if_false, if_true] <;> split <;> rfl

/-! ### Claim theorems: the CPU scheduler -/

/-- C5: in one `onRender` tick, every non-null particle is updated exactly
once, and the only further change to any pool slot is the launch (`run(1)`,
which does not advance the frame cursor) of the ready particle at the
round-robin cursor, which happens only when the system is active and the
timer fires; an inactive system still updates all particles but evaluates no
emission state.  Since a ready particle is inactive and `update` on an
inactive particle is a no-op, a particle launched during a tick is never also
advanced within that same tick. -/
theorem onRender_update_before_emission (sys : ParticleCurveSystem) (e : ℚ) :
    (∀ i p, sys.particles.getD i none = some p →
      (sys.onRender e).particles.getD i none =
        some (if sys.active = true ∧ sys.pTimerMax ≤ sys.pTimer + e ∧
            i = sys.pIndex ∧ (Particle.update p).ready = true
          then Particle.run 1 (Particle.update p)
          else Particle.update p)) ∧
    (sys.active = false →
      sys.onRender e =
        { sys with particles := sys.particles.map (Option.map Particle.update) }) ∧
    (∀ q : Particle, q.active = false → Particle.update q = q) ∧
    (∀ (n : ℤ) (q : Particle), (Particle.run n q).frame = q.frame) := by
  refine ⟨?_, fun ha => sys.onRender_inactive e ha,
    fun q hq => Particle.update_inactive q hq, fun n q => rfl⟩
  intro i p hp
  have hilen : i < sys.particles.length := by
    by_contra hge
    rw [List.getD_eq_getElem?_getD, List.getElem?_eq_none (by omega)] at hp
    cases hp
  have hmap : (sys.particles.map (Option.map Particle.update)).getD i none =
      some (Particle.update p) := by
    rw [getD_map_option, hp]
    rfl
  by_cases ha : sys.active = true
  · by_cases ht : sys.pTimerMax ≤ sys.pTimer + e
    · rw [sys.onRender_emit e ha ht]
      rcases hslot : sys.particles.getD sys.pIndex none with _ | q
      · have hm2 : (sys.particles.map (Option.map Particle.update)).getD
            sys.pIndex none = none := by
          rw [getD_map_option, hslot]
          rfl
        have hip : i ≠ sys.pIndex := by
          intro hh
          rw [hh, hslot] at hp
          cases hp
        simp only [hm2, hmap]
        rw [if_neg (by simp [hip])]
      · have hm2 : (sys.particles.map (Option.map Particle.update)).getD
            sys.pIndex none = some (Particle.update q) := by
          rw [getD_map_option, hslot]
          rfl
        simp only [hm2]
        by_cases hq : (Particle.update q).ready = true
        · simp only [hq, if_true]
          by_cases hip : i = sys.pIndex
          · subst hip
            have hpq : p = q := by
              rw [hslot] at hp
              exact (Option.some.injEq _ _).mp hp.symm
            subst hpq
            rw [getD_set_self _ _ _ (by simpa using hilen),
              if_pos ⟨ha, ht, rfl, hq⟩]
          · rw [getD_set_ne _ _ _ _ (fun hh => hip hh.symm), hmap,
              if_neg (by simp [hip])]
        · simp only [hq, if_false]
          rw [if_neg (by simp), hmap]
          by_cases hip : i = sys.pIndex
          · subst hip
            have hpq : p = q := by
              rw [hslot] at hp
              exact (Option.some.injEq _ _).mp hp.symm
            subst hpq
            rw [if_neg (by simp [hq])]
          · rw [if_neg (by simp [hip])]
    · rw [sys.onRender_noEmit e ha ht]
      simp only [hmap]
      rw [if_neg (by simp [ht])]
  · have ha' : sys.active = false := by
      revert ha
      cases sys.active <;> simp
    rw [sys.onRender_inactive e ha']
    simp only [hmap]
    rw [if_neg (by simp [ha'])]

/-- C6: a system configured with `particleCount = 4`, `life = 2` has
`maxRate = 2`; `setRate(r)` stores and returns `r` clamped to
`[0, maxRate]`; `setRate(0)` deactivates the system and zeroes `pRate`; and a
positive `setRate` while `pRate = 0` activates the system. -/
theorem setRate_clamps_and_toggles (sys : ParticleCurveSystem) (r : ℚ)
    (ps : List (Option Particle)) (hm : sys.maxRate = 2) :
    (mkParticleCurveSystem 4 2 ps).maxRate = 2 ∧
    (sys.setRate r).2 = clamp r 0 sys.maxRate ∧
    (sys.setRate r).1.pRate = clamp r 0 sys.maxRate ∧
    ((sys.setRate 0).1.active = false ∧ (sys.setRate 0).1.pRate = 0) ∧
    (0 < r → sys.pRate = 0 → (sys.setRate r).1.active = true) := by
  have hclamp0 : clamp 0 0 sys.maxRate = 0 := by
    rw [clamp, hm]
    norm_num
  refine ⟨?_, ?_, ?_, ?_, ?_⟩
  · show ((⌈((4 : ℕ) : ℚ) / (2 : ℚ)⌉ : ℤ) : ℚ) = 2
    norm_num
  · simp only [ParticleCurveSystem.setRate, ParticleCurveSystem.stop,
      ParticleCurveSystem.start]
    split_ifs <;> rfl
  · simp only [ParticleCurveSystem.setRate, ParticleCurveSystem.stop,
      ParticleCurveSystem.start]
    split_ifs <;> rfl
  · simp only [ParticleCurveSystem.setRate, ParticleCurveSystem.stop,
      ParticleCurveSystem.start, hclamp0]
    norm_num
  · intro hr hrate
    have hpos : 0 < clamp r 0 sys.maxRate := by
      rw [clamp, hm]
      have h1 : (0 : ℚ) < max 0 r := lt_max_of_lt_right hr
      exact lt_min (by norm_num) h1
    simp only [ParticleCurveSystem.setRate, ParticleCurveSystem.stop,
      ParticleCurveSystem.start]
    rw [if_neg (ne_of_gt hpos), if_pos ⟨hrate, hpos⟩]

/-- Witness for C5: a one-slot active system whose ready particle gets
launched by the firing timer. -/
theorem onRender_update_before_emission_witness :
    (ParticleCurveSystem.particles { active := true, pLife := 2, maxParticles := 1, maxRate := 1, particles := [some { frame := 1, lastFrame := 2, loops := none, totalLoops := none, ready := true, active := false, destroyed := false, visible := true, colorKeys := [], colors := [], scales := [] }], pRate := 1, pTimer := 1, pTimerMax := 1, pIndex := 0 }).getD 0 none =
      some { frame := 1, lastFrame := 2, loops := none, totalLoops := none, ready := true, active := false, destroyed := false, visible := true, colorKeys := [], colors := [], scales := [] } ∧
    (ParticleCurveSystem.onRender { active := true, pLife := 2, maxParticles := 1, maxRate := 1, particles := [some { frame := 1, lastFrame := 2, loops := none, totalLoops := none, ready := true, active := false, destroyed := false, visible := true, colorKeys := [], colors := [], scales := [] }], pRate := 1, pTimer := 1, pTimerMax := 1, pIndex := 0 } 1).particles.getD 0 none =
      some (if ({ active := true, pLife := 2, maxParticles := 1, maxRate := 1, particles := [some { frame := 1, lastFrame := 2, loops := none, totalLoops := none, ready := true, active := false, destroyed := false, visible := true, colorKeys := [], colors := [], scales := [] }], pRate := 1, pTimer := 1, pTimerMax := 1, pIndex := 0 } : ParticleCurveSystem).active = true ∧ ({ active := true, pLife := 2, maxParticles := 1, maxRate := 1, particles := [some { frame := 1, lastFrame := 2, loops := none, totalLoops := none, ready := true, active := false, destroyed := false, visible := true, colorKeys := [], colors := [], scales := [] }], pRate := 1, pTimer := 1, pTimerMax := 1, pIndex := 0 } : ParticleCurveSystem).pTimerMax ≤ ({ active := true, pLife := 2, maxParticles := 1, maxRate := 1, particles := [some { frame := 1, lastFrame := 2, loops := none, totalLoops := none, ready := true, active := false, destroyed := false, visible := true, colorKeys := [], colors := [], scales := [] }], pRate := 1, pTimer := 1, pTimerMax := 1, pIndex := 0 } : ParticleCurveSystem).pTimer + 1 ∧ (0 : ℕ) = ({ active := true, pLife := 2, maxParticles := 1, maxRate := 1, particles := [some { frame := 1, lastFrame := 2, loops := none, totalLoops := none, ready := true, active := false, destroyed := false, visible := true, colorKeys := [], colors := [], scales := [] }], pRate := 1, pTimer := 1, pTimerMax := 1, pIndex := 0 } : ParticleCurveSystem).pIndex ∧ (Particle.update { frame := 1, lastFrame := 2, loops := none, totalLoops := none, ready := true, active := false, destroyed := false, visible := true, colorKeys := [], colors := [], scales := [] }).ready = true
        then Particle.run 1 (Particle.update { frame := 1, lastFrame := 2, loops := none, totalLoops := none, ready := true, active := false, destroyed := false, visible := true, colorKeys := [], colors := [], scales := [] })
        else Particle.update { frame := 1, lastFrame := 2, loops := none, totalLoops := none, ready := true, active := false, destroyed := false, visible := true, colorKeys := [], colors := [], scales := [] }) ∧
    Particle.update { frame := 1, lastFrame := 2, loops := none, totalLoops := none, ready := true, active := false, destroyed := false, visible := true, colorKeys := [], colors := [], scales := [] } = { frame := 1, lastFrame := 2, loops := none, totalLoops := none, ready := true, active := false, destroyed := false, visible := true, colorKeys := [], colors := [], scales := [] } :=
  ⟨rfl,
   (onRender_update_before_emission { active := true, pLife := 2, maxParticles := 1, maxRate := 1, particles := [some { frame := 1, lastFrame := 2, loops := none, totalLoops := none, ready := true, active := false, destroyed := false, visible := true, colorKeys := [], colors := [], scales := [] }], pRate := 1, pTimer := 1, pTimerMax := 1, pIndex := 0 } 1).1 0 _ rfl,
   (onRender_update_before_emission { active := true, pLife := 2, maxParticles := 1, maxRate := 1, particles := [some { frame := 1, lastFrame := 2, loops := none, totalLoops := none, ready := true, active := false, destroyed := false, visible := true, colorKeys := [], colors := [], scales := [] }], pRate := 1, pTimer := 1, pTimerMax := 1, pIndex := 0 } 1).2.2.1 _ rfl⟩

/-- Witness for C6 on a rate-0 system with `maxRate = 2`, exercising
`setRate(10)` (clamped, auto-starts) and `setRate(0)` (stops). -/
theorem setRate_clamps_and_toggles_witness :
    (ParticleCurveSystem.maxRate { active := false, pLife := 2, maxParticles := 4, maxRate := 2, particles := [], pRate := 0, pTimer := 0, pTimerMax := 0, pIndex := 0 } = 2) ∧
    (0 : ℚ) < 10 ∧
    (ParticleCurveSystem.setRate { active := false, pLife := 2, maxParticles := 4, maxRate := 2, particles := [], pRate := 0, pTimer := 0, pTimerMax := 0, pIndex := 0 } 10).2 = clamp 10 0 (ParticleCurveSystem.maxRate { active := false, pLife := 2, maxParticles := 4, maxRate := 2, particles := [], pRate := 0, pTimer := 0, pTimerMax := 0, pIndex := 0 }) ∧
    (ParticleCurveSystem.setRate { active := false, pLife := 2, maxParticles := 4, maxRate := 2, particles := [], pRate := 0, pTimer := 0, pTimerMax := 0, pIndex := 0 } 10).1.active = true ∧
    (ParticleCurveSystem.setRate { active := false, pLife := 2, maxParticles := 4, maxRate := 2, particles := [], pRate := 0, pTimer := 0, pTimerMax := 0, pIndex := 0 } 0).1.active = false ∧
    (mkParticleCurveSystem 4 2 []).maxRate = 2 :=
  ⟨rfl, by norm_num,
   (setRate_clamps_and_toggles ({ active := false, pLife := 2, maxParticles := 4, maxRate := 2, particles := [], pRate := 0, pTimer := 0, pTimerMax := 0, pIndex := 0 } : ParticleCurveSystem) 10 [] rfl).2.1,
   (setRate_clamps_and_toggles ({ active := false, pLife := 2, maxParticles := 4, maxRate := 2, particles := [], pRate := 0, pTimer := 0, pTimerMax := 0, pIndex := 0 } : ParticleCurveSystem) 10 [] rfl).2.2.2.2 (by norm_num) rfl,
   (setRate_clamps_and_toggles ({ active := false, pLife := 2, maxParticles := 4, maxRate := 2, particles := [], pRate := 0, pTimer := 0, pTimerMax := 0, pIndex := 0 } : ParticleCurveSystem) 0 [] rfl).2.2.2.1.1,
   (setRate_clamps_and_toggles ({ active := false, pLife := 2, maxParticles := 4, maxRate := 2, particles := [], pRate := 0, pTimer := 0, pTimerMax := 0, pIndex := 0 } : ParticleCurveSystem) 0 [] rfl).1⟩

/-! ### The GpuParticleTrail playback state machine -/

/-- The wrap loop `while (--newTime > this.endTime) {}` of
`GpuParticleTrail.prototype.onRender`: decrement at least once, then keep
decrementing while still above the bound. -/
def wrapDown (t bound : ℚ) : ℚ :=
  if bound < t - 1 then wrapDown (t - 1) bound else t - 1
termination_by (⌈t - bound⌉).toNat
decreasing_by
  rename_i hlt
  have hpos : (0 : ℚ) < t - 1 - bound := by linarith
  have hceil : (1 : ℤ) ≤ ⌈t - 1 - bound⌉ := Int.ceil_pos.mpr hpos
  have heq : ⌈t - 1 - bound⌉ = ⌈t - bound⌉ - 1 := by
    rw [show t - 1 - bound = (t - bound) - (1 : ℤ) from by push_cast; ring,
      Int.ceil_sub_int]
  omega

/-- State of a `GpuParticleTrail`: the base system's `active` flag and the
`sysTime`/`ptcDec`/`ptcMaxTime` uniform values, plus the trail fields
`endTime`, `starting`, `stopping`.  Render-listener registration is external
(the `hemi` dispatcher). -/
structure GpuParticleTrail where
  active : Bool
  starting : Bool
  stopping : Bool
  endTime : ℚ
  life : ℚ
  timeParam : ℚ
  decParam : ℚ
  maxTimeParam : ℚ
deriving DecidableEq

/-- A freshly constructed trail system: trail fields from the constructor
(`endTime = 1`, both flags false); `active` false from the base constructor;
uniform values as installed by `setupShaders` (`sysTime = 1.1`, `ptcDec = 1`,
`ptcMaxTime = 3`). -/
def GpuParticleTrail.init (life : ℚ) : GpuParticleTrail :=
  { active := false, starting := false, stopping := false, endTime := 1,
    life := life, timeParam := 1.1, decParam := 1, maxTimeParam := 3 }

/-- `GpuParticleTrail.prototype.start()`: cancel a stop in progress, then from
inactive enter the starting phase with `endTime = 2`, `ptcDec = 2`,
`ptcMaxTime = 2`, `sysTime = 1`. -/
def GpuParticleTrail.start (s : GpuParticleTrail) : GpuParticleTrail :=
  let s := if s.stopping then { s with active := false, stopping := false } else s
  if s.active = false then
    { s with active := true, starting := true, stopping := false, endTime := 2,
             decParam := 2, maxTimeParam := 2, timeParam := 1 }
  else s

/-- `GpuParticleTrail.prototype.onRender(e)`: advance time by
`elapsedTime / life`; strictly past `endTime` either finalize a stop
(`sysTime = 1.1`, `ptcMaxTime = 3`) or, if starting, transition to steady
(`endTime`, `ptcDec`, `ptcMaxTime` all reset to 1) and wrap the time by
repeated decrement; a system still stopping afterwards grows `ptcMaxTime` by
the delta. -/
def GpuParticleTrail.onRender (s : GpuParticleTrail) (elapsedTime : ℚ) :
    GpuParticleTrail :=
  let delta := elapsedTime / s.life
  let newTime := s.timeParam + delta
  let s2n :=
    if s.endTime < newTime then
      if s.stopping then
        ({ s with active := false, stopping := false, maxTimeParam := 3 },
          (1.1 : ℚ))
      else
        let s1 :=
          if s.starting then
            { s with starting := false, endTime := 1, decParam := 1,
                     maxTimeParam := 1 }
          else s
        (s1, wrapDown newTime s1.endTime)
    else (s, newTime)
  let s3 :=
    if s2n.1.stopping then
      { s2n.1 with maxTimeParam := s2n.1.maxTimeParam + delta }
    else s2n.1
  { s3 with timeParam := s2n.2 }

/-- `GpuParticleTrail.prototype.stop(opt_hard)`: from active, a hard stop
sets `endTime = -1`, a first soft stop sets `endTime = sysTime + 1`; either
way `starting` clears and `stopping` is set. -/
def GpuParticleTrail.stop (s : GpuParticleTrail) (opt_hard : Bool) :
    GpuParticleTrail :=
  if s.active then
    let s :=
      if opt_hard then { s with endTime := -1 }
      else if s.stopping = false then { s with endTime := s.timeParam + 1 }
      else s
    { s with starting := false, stopping := true }
  else s

/-- `start()` on a fresh trail, written out. -/
theorem trail_start_init (life : ℚ) :
    (GpuParticleTrail.init life).start =
      { active := true, starting := true, stopping := false, endTime := 2,
        life := life, timeParam := 1, decParam := 2, maxTimeParam := 2 } := by
  norm_num [GpuParticleTrail.init, GpuParticleTrail.start]

/-- C8 counterexample: after `start()`, a tick with `elapsedTime` exactly
equal to `life` (delta = 1.0) makes `newTime = 2.0`, which is *not* strictly
greater than `endTime = 2.0`, so the starting-to-steady transition does not
fire: `starting` stays true and `sysTime` becomes 2.0, not a value in
`[0, 1)`.  This refutes the claim as stated. -/
theorem trail_tick_at_exact_life_no_transition :
    ((GpuParticleTrail.init 1).start.onRender 1).starting = true ∧
    ((GpuParticleTrail.init 1).start.onRender 1).timeParam = 2 ∧
    ((GpuParticleTrail.init 1).start.onRender 1).endTime = 2 ∧
    ¬ (((GpuParticleTrail.init 1).start.onRender 1).starting = false ∧
       0 ≤ ((GpuParticleTrail.init 1).start.onRender 1).timeParam ∧
       ((GpuParticleTrail.init 1).start.onRender 1).timeParam < 1) := by
  have h : (GpuParticleTrail.init 1).start.onRender 1 =
      { active := true, starting := true, stopping := false, endTime := 2,
        life := 1, timeParam := 2, decParam := 2, maxTimeParam := 2 } := by
    rw [trail_start_init]
    norm_num [GpuParticleTrail.onRender]
  rw [h]
  norm_num

/-- C8 (amended): after `start()` (which sets `sysTime = 1`, `endTime = 2`,
`starting = true`), a single tick with `elapsedTime` strictly between `life`
and twice `life` (so `1 < delta < 2`) leaves `starting = false` with
`endTime`, `ptcDec` and `ptcMaxTime` reset to 1.0, and leaves `sysTime`
wrapped to `delta - 1`, inside `(0, 1) ⊆ [0, 1)`. -/
theorem trail_tick_past_life_transition (life e : ℚ)
    (h1 : 1 < e / life) (h2 : e / life < 2) :
    ((GpuParticleTrail.init life).start).timeParam = 1 ∧
    ((GpuParticleTrail.init life).start).endTime = 2 ∧
    ((GpuParticleTrail.init life).start).starting = true ∧
    ((GpuParticleTrail.init life).start.onRender e).starting = false ∧
    ((GpuParticleTrail.init life).start.onRender e).endTime = 1 ∧
    ((GpuParticleTrail.init life).start.onRender e).decParam = 1 ∧
    ((GpuParticleTrail.init life).start.onRender e).maxTimeParam = 1 ∧
    ((GpuParticleTrail.init life).start.onRender e).timeParam = e / life - 1 ∧
    0 < ((GpuParticleTrail.init life).start.onRender e).timeParam ∧
    ((GpuParticleTrail.init life).start.onRender e).timeParam < 1 := by
  have hwrap : wrapDown (1 + e / life) 1 = e / life - 1 := by
    rw [wrapDown, if_pos (by linarith), wrapDown, if_neg (by linarith)]
    ring
  have h : (GpuParticleTrail.init life).start.onRender e =
      { active := true, starting := false, stopping := false, endTime := 1,
        life := life, timeParam := e / life - 1, decParam := 1,
        maxTimeParam := 1 } := by
    rw [trail_start_init]
    simp only [GpuParticleTrail.onRender]
    rw [if_pos (show (2 : ℚ) < 1 + e / life from by linarith)]
    norm_num [hwrap]
  rw [h, trail_start_init]
  refine ⟨rfl, rfl, rfl, rfl, rfl, rfl, rfl, rfl, by dsimp only; linarith,
    by dsimp only; linarith⟩

/-- Witness for C8 (amended) at `life = 1`, `elapsedTime = 3/2`. -/
theorem trail_tick_past_life_transition_witness :
    (1 : ℚ) < (3 / 2 : ℚ) / 1 ∧ (3 / 2 : ℚ) / 1 < 2 ∧
    (((GpuParticleTrail.init 1).start).timeParam = 1 ∧
     ((GpuParticleTrail.init 1).start).endTime = 2 ∧
     ((GpuParticleTrail.init 1).start).starting = true ∧
     ((GpuParticleTrail.init 1).start.onRender (3 / 2)).starting = false ∧
     ((GpuParticleTrail.init 1).start.onRender (3 / 2)).endTime = 1 ∧
     ((GpuParticleTrail.init 1).start.onRender (3 / 2)).decParam = 1 ∧
     ((GpuParticleTrail.init 1).start.onRender (3 / 2)).maxTimeParam = 1 ∧
     ((GpuParticleTrail.init 1).start.onRender (3 / 2)).timeParam =
       (3 / 2 : ℚ) / 1 - 1 ∧
     0 < ((GpuParticleTrail.init 1).start.onRender (3 / 2)).timeParam ∧
     ((GpuParticleTrail.init 1).start.onRender (3 / 2)).timeParam < 1) :=
  ⟨by norm_num, by norm_num,
   trail_tick_past_life_transition 1 (3 / 2) (by norm_num) (by norm_num)⟩

end Hemi





